import Mathlib

/-!
# sample-k8s-controller: the reconciliation worker, its retry policy and lifecycle

A shallow embedding of `controller/controller.go` (the `Controller` type with
`Run`, `runWorker`, `processNextItem`) and of `main.go` (the pod-name logging
handler and the event handler registered on the informer).

The work queue, the informer and the `wait` helpers are library code that the
two source files only call; they are modelled here as explicit state with the
contract the design document gives them.
-/

namespace K8sController

/-! ## Dynamic values -/

/-- Go values of static type `interface{}` as they flow through the queue, the
cache and the handlers: the untyped nil, a `string`, a `*apiv1.Pod` (namespace
and name are the only fields the program reads) or a value of some other
dynamic type. -/
inductive Value where
  | nil
  | str (s : String)
  | pod (ns name : String)
  | other (tag : Nat)
deriving DecidableEq, Repr

/-- Lines written through `log.Printf`, kept
structurally (the format string of each is given with its constructor). -/
inductive LogMsg where
  /-- Format: "Controller started at %v.\n" -/
  | controllerStarted
  /-- Format: "Controller synced at %v and listening for changes.\n" -/
  | controllerSynced
  /-- Format: "Error retrieving by key: '%v', error: %v" -/
  | errorRetrieving (key : Value) (err : String)
  /-- Format: "Max retries exceeded for key: %v" -/
  | maxRetriesExceeded (key : Value)
  /-- Format: "Pod created with name: %v\n" -/
  | podCreated (name : String)
  /-- Format: "Pod deleted with name: %v\n" -/
  | podDeleted (name : String)
  /-- Line written by some other handler. -/
  | custom (text : String)
deriving DecidableEq, Repr

/-- Observable calls made by the program, in program order. -/
inductive Event where
  | get (key : Value) (shutdown : Bool)
  | done (key : Value)
  | add (key : Value)
  | addRateLimited (key : Value)
  | forget (key : Value)
  | numRequeues (key : Value) (n : Nat)
  | shutDown
  | getByKey (key : String)
  | hasSynced (result : Bool)
  | informerRun
  | handleError (err : String)
  | objectCreated (obj : Value)
  | objectDeleted (obj : Value)
  | log (msg : LogMsg)
deriving DecidableEq, Repr

/-! ## Work queue -/

/-- Modelled from the spec: the rate-limiting work queue of
`k8s.io/client-go/util/workqueue` (section 3 "Queue Item", section 4.2).
`queue` is the FIFO of keys ready for `Get`; `dirty` the dedupe set; `processing`
the keys claimed between `Get` and `Done`; `waiting` the keys whose backoff delay
has not elapsed yet; `failures` the per-key retry counter. -/
structure Queue where
  queue : List Value
  dirty : List Value
  processing : List Value
  waiting : List Value
  shuttingDown : Bool
  failures : Value → Nat

namespace Queue

/-- Modelled from the spec: a fresh queue (`workqueue.NewRateLimitingQueue`). -/
def empty : Queue :=
  { queue := [], dirty := [], processing := [], waiting := [],
    shuttingDown := false, failures := fun _ => 0 }

/-- Modelled from the spec: `Add(key)` enqueues the key unless it is already
queued or in flight; after shutdown it is ignored. -/
def Add (q : Queue) (key : Value) : Queue :=
  if q.shuttingDown then q
  else if key ∈ q.dirty then q
  else if key ∈ q.processing then { q with dirty := key :: q.dirty }
  else { q with dirty := key :: q.dirty, queue := q.queue ++ [key] }

/-- Modelled from the spec: `Get()` hands out the oldest ready key and claims
it; on an empty queue it reports shutdown once the queue is shut down and
otherwise blocks (`none`). -/
def Get (q : Queue) : Option (Value × Bool × Queue) :=
  match q.queue with
  | key :: rest =>
      some (key, false,
        { q with queue := rest, processing := key :: q.processing,
                 dirty := q.dirty.erase key })
  | [] => if q.shuttingDown then some (Value.nil, true, q) else none

/-- Modelled from the spec: `Done(key)` releases the claim; a key re-added
while in flight becomes ready again. -/
def Done (q : Queue) (key : Value) : Queue :=
  let q1 := { q with processing := q.processing.erase key }
  if key ∈ q1.dirty then { q1 with queue := q1.queue ++ [key] } else q1

/-- Modelled from the spec: `NumRequeues(key)` is the current retry counter. -/
def NumRequeues (q : Queue) (key : Value) : Nat :=
  q.failures key

/-- Modelled from the spec: `Forget(key)` resets the retry counter to zero. -/
def Forget (q : Queue) (key : Value) : Queue :=
  { q with failures := fun k => if k = key then 0 else q.failures k }

/-- Modelled from the spec: `AddRateLimited(key)` increments the retry counter
and schedules the key to be added once its backoff delay elapses. -/
def AddRateLimited (q : Queue) (key : Value) : Queue :=
  let q1 := { q with failures := fun k => if k = key then q.failures k + 1 else q.failures k }
  if q1.shuttingDown then q1 else { q1 with waiting := q1.waiting ++ [key] }

/-- Modelled from the spec: the backoff delay of the oldest waiting key
elapses and the key is added. -/
def timerFires (q : Queue) : Queue :=
  match q.waiting with
  | [] => q
  | key :: rest => Add { q with waiting := rest } key

/-- Modelled from the spec: `ShutDown()` closes the queue; idempotent. -/
def ShutDown (q : Queue) : Queue :=
  { q with shuttingDown := true }

end Queue

/-! ## Cache and handler -/

/-- The three results of `Indexer.GetByKey`: `item, exists, err`. -/
structure Lookup where
  item : Value
  «exists» : Bool
  err : Option String

/-- Modelled from the spec: `cache.ResourceEventHandlerFuncs` (library code
the repository only calls), the adaptor that lets a caller register any subset
of the three notification callbacks, each of which may be left nil. A
callback acts on the work queue it closes over; here it receives the queue and
returns the calls it made and the queue afterwards. -/
structure ResourceEventHandlerFuncs where
  AddFunc : Option (Value → Queue → List Event × Queue)
  UpdateFunc : Option (Value → Value → Queue → List Event × Queue)
  DeleteFunc : Option (Value → Queue → List Event × Queue)

namespace ResourceEventHandlerFuncs

/-- Modelled from the spec: `OnAdd` calls `AddFunc` if it is not nil. -/
def OnAdd (r : ResourceEventHandlerFuncs) (obj : Value) (q : Queue) : List Event × Queue :=
  match r.AddFunc with
  | some f => f obj q
  | none => ([], q)

/-- Modelled from the spec: `OnUpdate` calls `UpdateFunc` if it is not nil. -/
def OnUpdate (r : ResourceEventHandlerFuncs) (oldObj newObj : Value) (q : Queue) :
    List Event × Queue :=
  match r.UpdateFunc with
  | some f => f oldObj newObj q
  | none => ([], q)

/-- Modelled from the spec: `OnDelete` calls `DeleteFunc` if it is not nil. -/
def OnDelete (r : ResourceEventHandlerFuncs) (obj : Value) (q : Queue) : List Event × Queue :=
  match r.DeleteFunc with
  | some f => f obj q
  | none => ([], q)

end ResourceEventHandlerFuncs

/-- Modelled from the spec: `cache.MetaNamespaceKeyFunc` (library code the
repository only calls), the key of an object that carries metadata:
`namespace/name`, or `name` alone when it has no namespace; an error for a
value without metadata. -/
def MetaNamespaceKeyFunc (obj : Value) : Except String String :=
  match obj with
  | Value.pod ns name => if ns.length > 0 then Except.ok (ns ++ "/" ++ name) else Except.ok name
  | _ => Except.error "object has no meta"

/-- Lines 58-65 of main.go: the event handler registered on the informer. Only
`AddFunc` is set: it computes the object's key and, when that succeeds, adds
the key to the queue. -/
def eventHandlers : ResourceEventHandlerFuncs :=
  { AddFunc := some (fun obj queue =>
      match MetaNamespaceKeyFunc obj with
      | Except.ok key => ([Event.add (Value.str key)], queue.Add (Value.str key))
      | Except.error _ => ([], queue))
    UpdateFunc := none
    DeleteFunc := none }

/-- Notifications the event source delivers to the informer. -/
inductive Notification where
  | added (obj : Value)
  | updated (oldObj newObj : Value)
  | deleted (obj : Value)
deriving DecidableEq, Repr

/-- The informer as the controller uses it: the indexer's point lookup, the
synced flag and the registered event handler. -/
structure SharedIndexInformer where
  GetByKey : String → Lookup
  HasSynced : Bool
  handlers : ResourceEventHandlerFuncs

namespace SharedIndexInformer

/-- Modelled from the spec: the cache entry table after a notification
(section 3 "Cache Entry"): inserted or overwritten on add and update, removed on
delete; an object without a key leaves the table as it is. -/
def store (i : SharedIndexInformer) (n : Notification) : SharedIndexInformer :=
  match n with
  | Notification.added obj | Notification.updated _ obj =>
      match MetaNamespaceKeyFunc obj with
      | Except.ok key =>
          { i with GetByKey := fun k =>
              if k = key then { item := obj, «exists» := true, err := none } else i.GetByKey k }
      | Except.error _ => i
  | Notification.deleted obj =>
      match MetaNamespaceKeyFunc obj with
      | Except.ok key =>
          { i with GetByKey := fun k =>
              if k = key then { item := Value.nil, «exists» := false, err := none }
              else i.GetByKey k }
      | Except.error _ => i

/-- Modelled from the spec: the registered handler's callback for a
notification, run against the work queue. -/
def dispatch (i : SharedIndexInformer) (n : Notification) (q : Queue) : List Event × Queue :=
  match n with
  | Notification.added obj => i.handlers.OnAdd obj q
  | Notification.updated oldObj newObj => i.handlers.OnUpdate oldObj newObj q
  | Notification.deleted obj => i.handlers.OnDelete obj q

end SharedIndexInformer

/-- What a handler call does as far as the controller can observe: the lines
it logs, and whether it returns or panics. -/
structure HandlerResult where
  logs : List LogMsg
  panics : Bool

/-- The `Handler` interface of controller.go. The `client` argument is the
controller's `ClientSet`, passed through unchanged. -/
structure Handler where
  ObjectCreated : Value → HandlerResult
  ObjectDeleted : Value → HandlerResult

/-- The `Controller` struct of controller.go (`ClientSet` is only handed to
the handler). -/
structure Controller where
  Queue : Queue
  Informer : SharedIndexInformer
  Handler : Handler

/-- How a call ends: it returns a value, panics, or never returns because it
blocks. -/
inductive Outcome (α : Type) where
  | returned (a : α)
  | panicked
  | blocked
deriving DecidableEq, Repr

/-- Result of running a piece of the controller: how it ended, the calls it
made, and the controller afterwards. -/
structure Result (α : Type) where
  outcome : Outcome α
  trace : List Event
  c : Controller

/-- The `podNameLoggingHandler` of main.go: both methods log the pod's name when
the argument is a `*apiv1.Pod` and do nothing otherwise. -/
def podNameLoggingHandler : Handler :=
  { ObjectCreated := fun obj =>
      match obj with
      | Value.pod _ name => { logs := [LogMsg.podCreated name], panics := false }
      | _ => { logs := [], panics := false }
    ObjectDeleted := fun obj =>
      match obj with
      | Value.pod _ name => { logs := [LogMsg.podDeleted name], panics := false }
      | _ => { logs := [], panics := false } }

/-! ## processNextItem -/

/-- Lines 58-80 of controller.go: the body of `processNextItem` once the
call `Done(key)` has been deferred. Returns how the body ended, the calls it
made and the queue afterwards. -/
def processBody (c : Controller) (key : Value) : Outcome Bool × List Event × Queue :=
  match key with
  | Value.str keyRaw =>
      let r := c.Informer.GetByKey keyRaw
      match r.err with
      | some err =>
          if c.Queue.NumRequeues key < 5 then
            (Outcome.returned true,
             [Event.getByKey keyRaw, Event.log (LogMsg.errorRetrieving key err),
              Event.numRequeues key (c.Queue.NumRequeues key), Event.addRateLimited key],
             c.Queue.AddRateLimited key)
          else
            (Outcome.returned true,
             [Event.getByKey keyRaw, Event.log (LogMsg.errorRetrieving key err),
              Event.numRequeues key (c.Queue.NumRequeues key),
              Event.log (LogMsg.maxRetriesExceeded key), Event.forget key],
             c.Queue.Forget key)
      | none =>
          if !r.exists then
            let h := c.Handler.ObjectDeleted key
            if h.panics then
              (Outcome.panicked,
               [Event.getByKey keyRaw, Event.objectDeleted key] ++ h.logs.map Event.log,
               c.Queue)
            else
              (Outcome.returned true,
               [Event.getByKey keyRaw, Event.objectDeleted key] ++ h.logs.map Event.log
                 ++ [Event.forget key],
               c.Queue.Forget key)
          else
            let h := c.Handler.ObjectCreated r.item
            if h.panics then
              (Outcome.panicked,
               [Event.getByKey keyRaw, Event.objectCreated r.item] ++ h.logs.map Event.log,
               c.Queue)
            else
              (Outcome.returned true,
               [Event.getByKey keyRaw, Event.objectCreated r.item] ++ h.logs.map Event.log
                 ++ [Event.forget key],
               c.Queue.Forget key)
  | _ => (Outcome.panicked, [], c.Queue)

/-- Lines 51-81 of controller.go, `Controller.processNextItem`: `Get`; on
shutdown return false; otherwise register the deferred `Done(key)`, run the
body, and run `Done` when the body returns or panics. -/
def processNextItem (c : Controller) : Result Bool :=
  match c.Queue.Get with
  | none => { outcome := Outcome.blocked, trace := [], c := c }
  | some (key, quit, q1) =>
      if quit then
        { outcome := Outcome.returned false, trace := [Event.get key quit],
          c := { c with Queue := q1 } }
      else
        let b := processBody { c with Queue := q1 } key
        { outcome := b.1,
          trace := [Event.get key quit] ++ b.2.1 ++ [Event.done key],
          c := { c with Queue := b.2.2.Done key } }


/-! ## Run -/

/-- Where the goroutine that executes `Controller.Run` stands. -/
inductive Pc where
  /-- Line 31: `Run` has been called, nothing executed yet. -/
  | entry
  /-- Line 37: inside `cache.WaitForCacheSync(stopCh, c.HasSynced)`. -/
  | syncWait
  /-- Line 38: `WaitForCacheSync` returned false. -/
  | syncFailed
  /-- Line 43: `wait.Until` at the top of its loop, about to test `stopCh`. -/
  | untilCheck
  /-- Lines 46-49: inside `runWorker`, about to call `processNextItem`. -/
  | inWorker
  /-- Line 43: `wait.Until` after `runWorker` returned, waiting for the period or `stopCh`. -/
  | untilSleep
  /-- Line 33: the body of `Run` is over, the deferred `Queue.ShutDown` is pending. -/
  | deferred
  /-- Terminal: `Run` has returned to its caller. -/
  | returned
  /-- Terminal: a panic left `Run` after the deferred calls ran. -/
  | crashed
deriving DecidableEq, Repr

/-- State of one execution of `Run`: the controller, the position of the
`Run` goroutine, whether `stopCh` is closed, whether the informer goroutine
has been started, whether a panic is unwinding, and the calls made so far. -/
structure RunState where
  c : Controller
  pc : Pc
  stop : Bool
  informerStarted : Bool
  panicking : Bool
  trace : List Event

/-- The moves of an execution of `Run`. The first four belong to the
environment and the other goroutines; the last three to the `Run` goroutine. -/
inductive Label where
  /-- The caller closes `stopCh`. -/
  | closeStop
  /-- The informer goroutine finishes applying the initial listing. -/
  | informerSynced
  /-- The informer goroutine applies a notification and calls the handler. -/
  | notify (n : Notification)
  /-- The backoff delay of the oldest waiting key elapses. -/
  | backoffElapsed
  /-- The timer branch of the `select` the `Run` goroutine waits in is taken. -/
  | tick
  /-- The `stopCh` branch of the `select` the `Run` goroutine waits in is taken. -/
  | stopSeen
  /-- The `Run` goroutine executes its next sequential statement. -/
  | run
deriving DecidableEq, Repr

/-- Line 31 of controller.go: `Controller.Run` entered with the given
controller and stop channel state. -/
def Run (c : Controller) (stop : Bool) : RunState :=
  { c := c, pc := Pc.entry, stop := stop, informerStarted := false,
    panicking := false, trace := [] }

/-- Lines 46-49 of controller.go, `runWorker`: one turn of the loop
`for c.processNextItem() {}`. The pass returning true keeps `Run` in the loop,
the pass returning false ends `runWorker`, a panic of the pass unwinds out of
`Run`, and while `Get` blocks there is no move (`none`). -/
def runWorker (s : RunState) : Option RunState :=
  let r := processNextItem s.c
  match r.outcome with
  | Outcome.blocked => none
  | Outcome.returned true =>
      some { s with c := r.c, trace := s.trace ++ r.trace }
  | Outcome.returned false =>
      some { s with c := r.c, trace := s.trace ++ r.trace, pc := Pc.untilSleep }
  | Outcome.panicked =>
      some { s with c := r.c, trace := s.trace ++ r.trace, pc := Pc.deferred
                    panicking := true }

/-- One move of an execution of `Run` (controller.go lines 31-44); `none`
when the move is not enabled. `cache.WaitForCacheSync` polls `HasSynced` on a
timer and gives up when `stopCh` is closed (with `stopCh` closed and the
informer synced both outcomes are possible); `wait.Until` calls `runWorker` in
the calling goroutine, tests `stopCh` before each call and waits for the period
or `stopCh` after each call; the deferred `Queue.ShutDown` runs when the body
of `Run` is over. -/
def step (s : RunState) (l : Label) : Option RunState :=
  match l with
  | Label.closeStop => if s.stop then none else some { s with stop := true }
  | Label.informerSynced =>
      if s.informerStarted then
        some { s with c := { s.c with Informer := { s.c.Informer with HasSynced := true } } }
      else none
  | Label.notify n =>
      if s.informerStarted then
        let r := s.c.Informer.dispatch n s.c.Queue
        some { s with
          c := { s.c with Informer := s.c.Informer.store n, Queue := r.2 }
          trace := s.trace ++ r.1 }
      else none
  | Label.backoffElapsed =>
      some { s with c := { s.c with Queue := s.c.Queue.timerFires } }
  | Label.tick =>
      match s.pc with
      | Pc.syncWait =>
          if s.c.Informer.HasSynced then
            some { s with pc := Pc.untilCheck
                          trace := s.trace ++ [Event.hasSynced true,
                            Event.log LogMsg.controllerSynced] }
          else some { s with trace := s.trace ++ [Event.hasSynced false] }
      | Pc.untilSleep => some { s with pc := Pc.untilCheck }
      | _ => none
  | Label.stopSeen =>
      match s.pc with
      | Pc.syncWait => if s.stop then some { s with pc := Pc.syncFailed } else none
      | Pc.untilSleep => if s.stop then some { s with pc := Pc.deferred } else none
      | _ => none
  | Label.run =>
      match s.pc with
      | Pc.entry =>
          some { s with pc := Pc.syncWait, informerStarted := true
                        trace := s.trace ++ [Event.informerRun,
                          Event.log LogMsg.controllerStarted] }
      | Pc.syncFailed =>
          some { s with pc := Pc.deferred
                        trace := s.trace ++ [Event.handleError "error syncing cache"] }
      | Pc.untilCheck =>
          if s.stop then some { s with pc := Pc.deferred }
          else some { s with pc := Pc.inWorker }
      | Pc.inWorker => runWorker s
      | Pc.deferred =>
          some { s with c := { s.c with Queue := s.c.Queue.ShutDown }
                        trace := s.trace ++ [Event.shutDown]
                        pc := if s.panicking then Pc.crashed else Pc.returned }
      | _ => none

/-- Runs a sequence of moves; `none` as soon as one of them is not enabled. -/
def steps (s : RunState) : List Label → Option RunState
  | [] => some s
  | l :: ls => (step s l).bind fun s1 => steps s1 ls

/-- States that an execution of `Run` started in `s0` can be in. -/
def Reachable (s0 s : RunState) : Prop :=
  ∃ ls : List Label, steps s0 ls = some s

/-! ## Repeated deliveries of one key -/

/-- One delivery: a pass of `processNextItem`, after which the backoff delay
of a key the pass re-added with `AddRateLimited` elapses. -/
def delivery (c : Controller) : Result Bool :=
  let r := processNextItem c
  { r with c := { r.c with Queue := r.c.Queue.timerFires } }

/-- The calls made by `n` consecutive deliveries and the controller after
them. -/
def deliveries : Nat → Controller → List Event × Controller
  | 0, c => ([], c)
  | n + 1, c =>
      let p := deliveries n c
      let r := delivery p.2
      (p.1 ++ r.trace, r.c)

/-! ## Reading traces -/

/-- Handler invocations. -/
def Event.isHandlerCall : Event → Bool
  | Event.objectCreated _ => true
  | Event.objectDeleted _ => true
  | _ => false

/-- Calls of `Queue.Done`. -/
def Event.isDone : Event → Bool
  | Event.done _ => true
  | _ => false

/-- Calls of `Queue.AddRateLimited`. -/
def Event.isAddRateLimited : Event → Bool
  | Event.addRateLimited _ => true
  | _ => false

/-- Calls of `Queue.Forget`. -/
def Event.isForget : Event → Bool
  | Event.forget _ => true
  | _ => false

/-- Calls of `Queue.Get`. -/
def Event.isGet : Event → Bool
  | Event.get _ _ => true
  | _ => false

/-- Calls that only the worker loop makes: `Queue.Get` and the handlers. -/
def Event.isWorkerCall (e : Event) : Bool :=
  e.isGet || e.isHandlerCall

/-- Calls that a pass of `processNextItem` can make. -/
def Event.isPassCall : Event → Bool
  | Event.get _ _ => true
  | Event.done _ => true
  | Event.addRateLimited _ => true
  | Event.forget _ => true
  | Event.numRequeues _ _ => true
  | Event.getByKey _ => true
  | Event.objectCreated _ => true
  | Event.objectDeleted _ => true
  | Event.log _ => true
  | _ => false

/-- Scans a trace from its start: true when no `Queue.Get` and no handler call
comes before the first `HasSynced` that returned true. -/
def syncGated : List Event → Bool
  | [] => true
  | e :: t => if e = Event.hasSynced true then true else !e.isWorkerCall && syncGated t

/-- Calls on the work queue. -/
def Event.isQueueOp : Event → Bool
  | Event.get _ _ => true
  | Event.done _ => true
  | Event.add _ => true
  | Event.addRateLimited _ => true
  | Event.forget _ => true
  | Event.numRequeues _ _ => true
  | Event.shutDown => true
  | _ => false

/-! ## Concrete controllers used to evaluate the code -/

/-- An informer whose cache is empty: every lookup succeeds with `exists=false`. -/
def emptyInformer : SharedIndexInformer :=
  { GetByKey := fun _ => { item := Value.nil, «exists» := false, err := none }
    HasSynced := false
    handlers := eventHandlers }

/-- An informer whose every lookup reports a storage fault. -/
def failingInformer : SharedIndexInformer :=
  { GetByKey := fun _ => { item := Value.nil, «exists» := false, err := some "storage fault" }
    HasSynced := true
    handlers := eventHandlers }

/-- An informer that holds the pod `ns/pod-1` and nothing else. -/
def podInformer : SharedIndexInformer :=
  emptyInformer.store (Notification.added (Value.pod "ns" "pod-1"))

/-- A handler whose deletion capability logs a line and then panics. -/
def panickingHandler : Handler :=
  { ObjectCreated := fun _ => { logs := [], panics := false }
    ObjectDeleted := fun _ => { logs := [LogMsg.custom "about to fail"], panics := true } }

/-- The controller of `main.go` with an empty cache and an empty queue. -/
def mainController : Controller :=
  { Queue := Queue.empty, Informer := emptyInformer, Handler := podNameLoggingHandler }

/-- The key `ns/pod-1` is ready in the queue, its retry counter is 3, the cache
has no entry for it, and the deletion handler panics. -/
def panicController : Controller :=
  { Queue := { Queue.empty with
                 queue := [Value.str "ns/pod-1"], dirty := [Value.str "ns/pod-1"]
                 failures := fun k => if k = Value.str "ns/pod-1" then 3 else 0 }
    Informer := emptyInformer
    Handler := panickingHandler }

/-- The key `ns/pod-1` is ready in the queue and the cache holds the pod. -/
def createdController : Controller :=
  { Queue := Queue.empty.Add (Value.str "ns/pod-1")
    Informer := podInformer
    Handler := podNameLoggingHandler }

/-- The key `ns/pod-2` is ready in the queue and the cache has no entry for it. -/
def deletedController : Controller :=
  { Queue := Queue.empty.Add (Value.str "ns/pod-2")
    Informer := emptyInformer
    Handler := podNameLoggingHandler }

/-- The key `ns/pod-3` is ready in the queue with retry counter 0 and every
lookup fails. -/
def failingController : Controller :=
  { Queue := Queue.empty.Add (Value.str "ns/pod-3")
    Informer := failingInformer
    Handler := podNameLoggingHandler }

/-- A queue that was shut down while empty. -/
def stoppedController : Controller :=
  { Queue := Queue.empty.ShutDown, Informer := emptyInformer, Handler := podNameLoggingHandler }

/-! ## Queue shapes -/

/-- The key is ready for `Get` and is the only key the queue knows about:
nothing else is queued, claimed or waiting for a backoff delay, and the queue
is not shut down. -/
def Queue.holdsOnly (q : Queue) (key : Value) : Prop :=
  q.queue = [key] ∧ q.dirty = [key] ∧ q.processing = [] ∧ q.waiting = [] ∧
    q.shuttingDown = false

/-- Nothing is queued, claimed or waiting for a backoff delay, and the queue
is not shut down: a `Get` blocks and no later delivery is scheduled. -/
def Queue.idle (q : Queue) : Prop :=
  q.queue = [] ∧ q.dirty = [] ∧ q.processing = [] ∧ q.waiting = [] ∧
    q.shuttingDown = false

instance (q : Queue) (key : Value) : Decidable (q.holdsOnly key) := by
  unfold Queue.holdsOnly
  infer_instance

instance (q : Queue) : Decidable q.idle := by
  unfold Queue.idle
  infer_instance

/-! ## Invariant of an execution of Run -/

/-- What holds in every state of an execution of `Run` whose informer carries
the event handler of `main.go`: the trace is sync-gated; a `HasSynced` that
returned true means the informer had synced; the worker loop positions come
after such a `HasSynced`; before and during the sync wait nothing of that kind
and no sync error has been recorded; a sync error excludes a successful
`HasSynced` and leaves `Run` on its way out without a panic; once `Run` is
over the queue has been shut down; and a sync failure is only reported when
`stopCh` is closed. -/
def RunInv (s : RunState) : Prop :=
  s.c.Informer.handlers = eventHandlers ∧
  syncGated s.trace = true ∧
  (Event.hasSynced true ∈ s.trace → s.c.Informer.HasSynced = true) ∧
  ((s.pc = Pc.untilCheck ∨ s.pc = Pc.inWorker ∨ s.pc = Pc.untilSleep) →
    Event.hasSynced true ∈ s.trace ∧ Event.handleError "error syncing cache" ∉ s.trace) ∧
  ((s.pc = Pc.entry ∨ s.pc = Pc.syncWait ∨ s.pc = Pc.syncFailed) →
    Event.hasSynced true ∉ s.trace ∧ Event.handleError "error syncing cache" ∉ s.trace ∧
    s.panicking = false) ∧
  (Event.handleError "error syncing cache" ∈ s.trace →
    Event.hasSynced true ∉ s.trace ∧ (s.pc = Pc.deferred ∨ s.pc = Pc.returned) ∧
    s.panicking = false) ∧
  ((s.pc = Pc.returned ∨ s.pc = Pc.crashed) →
    Event.shutDown ∈ s.trace ∧ s.c.Queue.shuttingDown = true) ∧
  ((s.pc = Pc.syncFailed ∨ Event.handleError "error syncing cache" ∈ s.trace) →
    s.stop = true)

/-! ## The stop signal while a worker waits in Get -/

/-- The moves that bring `Run` on the controller of `main.go` to a worker
blocked in `Get` on an empty queue with the stop signal fired: `Run` starts the
informer, the informer syncs, the sync wait sees it, `wait.Until` calls
`runWorker`, and then `stopCh` is closed. -/
def stopWhileBlocked : List Label :=
  [Label.run, Label.informerSynced, Label.tick, Label.run, Label.closeStop]

/-- The worker loop is where `Run` stands, the queue is open, it has not been
shut down by `Run`, the informer carries the event handler of `main.go`, the
handler never panics, and every key that is ready or waiting is a string. -/
def Parked (s : RunState) : Prop :=
  s.pc = Pc.inWorker ∧
  s.c.Queue.shuttingDown = false ∧
  Event.shutDown ∉ s.trace ∧
  s.c.Informer.handlers = eventHandlers ∧
  (∀ v, (s.c.Handler.ObjectCreated v).panics = false ∧
    (s.c.Handler.ObjectDeleted v).panics = false) ∧
  (∀ k ∈ s.c.Queue.queue, ∃ keyRaw, k = Value.str keyRaw) ∧
  (∀ k ∈ s.c.Queue.waiting, ∃ keyRaw, k = Value.str keyRaw)

/-! ## Failure episodes -/

/-- A failure episode of a key: the passes on `cs 0`, ..., `cs n`, in each of
which `Get` hands out the key and its cache lookup fails. The key's retry
counter is 0 at the start, and between one of these passes and the next
anything may happen to the controller except a change of that counter. -/
def FailureEpisode (cs : Nat → Controller) (keyRaw : String) (n : Nat) : Prop :=
  (cs 0).Queue.NumRequeues (Value.str keyRaw) = 0 ∧
  (∀ i, i ≤ n →
    ((cs i).Queue.Get.map fun r => (r.1, r.2.1)) = some (Value.str keyRaw, false) ∧
    ((cs i).Informer.GetByKey keyRaw).err ≠ none) ∧
  (∀ i, i < n →
    (cs (i + 1)).Queue.NumRequeues (Value.str keyRaw)
      = (processNextItem (cs i)).c.Queue.NumRequeues (Value.str keyRaw))

instance (cs : Nat → Controller) (keyRaw : String) (n : Nat) :
    Decidable (FailureEpisode cs keyRaw n) := by
  unfold FailureEpisode
  infer_instance

/-- Number of `AddRateLimited` calls made by the passes on `cs 0`, ...,
`cs (m - 1)`. -/
def addRateLimitedCalls (cs : Nat → Controller) (m : Nat) : Nat :=
  ((List.range m).map fun i =>
    ((processNextItem (cs i)).trace.filter Event.isAddRateLimited).length).sum

/-! ## Lemmas on the queue -/

theorem Queue.Get_failures (q q1 : Queue) (key : Value) (quit : Bool)
    (h : q.Get = some (key, quit, q1)) : q1.failures = q.failures := by
  unfold Queue.Get at h
  split at h
  · simp at h; obtain ⟨_, _, rfl⟩ := h; rfl
  · split at h
    · simp at h; obtain ⟨_, _, rfl⟩ := h; rfl
    · simp at h

theorem Queue.Get_quit_iff (q q1 : Queue) (key : Value) (quit : Bool)
    (h : q.Get = some (key, quit, q1)) :
    quit = true ↔ (q.queue = [] ∧ q.shuttingDown = true) := by
  unfold Queue.Get at h
  split at h
  · rename_i k rest hq
    simp at h; obtain ⟨_, rfl, _⟩ := h; simp [hq]
  · rename_i hq
    split at h
    · rename_i hs
      simp at h; obtain ⟨_, rfl, _⟩ := h; simp [hq, hs]
    · simp at h

theorem Queue.Done_failures (q : Queue) (key : Value) :
    (q.Done key).failures = q.failures := by
  unfold Queue.Done
  simp only
  split <;> rfl

theorem Queue.NumRequeues_Forget_Done (q : Queue) (key : Value) :
    ((q.Forget key).Done key).NumRequeues key = 0 := by
  simp [Queue.NumRequeues, Queue.Done_failures, Queue.Forget]

theorem Queue.NumRequeues_AddRateLimited_Done (q : Queue) (key : Value) :
    ((q.AddRateLimited key).Done key).NumRequeues key = q.NumRequeues key + 1 := by
  simp only [Queue.NumRequeues, Queue.Done_failures]
  unfold Queue.AddRateLimited
  simp only
  split <;> simp

/-! ## Lemmas on traces -/

theorem filter_isHandlerCall_logs (l : List LogMsg) :
    (l.map Event.log).filter Event.isHandlerCall = [] := by
  induction l with
  | nil => rfl
  | cons a t ih => simp [List.filter, Event.isHandlerCall]

theorem filter_isDone_logs (l : List LogMsg) :
    (l.map Event.log).filter Event.isDone = [] := by
  induction l with
  | nil => rfl
  | cons a t ih => simp [List.filter, Event.isDone]

/-! ## The paths through processNextItem -/

theorem processNextItem_blocked (c : Controller) (hget : c.Queue.Get = none) :
    (processNextItem c).outcome = Outcome.blocked ∧ (processNextItem c).trace = [] := by
  simp [processNextItem, hget]

theorem processNextItem_quit (c : Controller) (key : Value) (q1 : Queue)
    (hget : c.Queue.Get = some (key, true, q1)) :
    (processNextItem c).outcome = Outcome.returned false ∧
    (processNextItem c).trace = [Event.get key true] := by
  simp [processNextItem, hget]

theorem processNextItem_claimed (c : Controller) (key : Value) (q1 : Queue)
    (hget : c.Queue.Get = some (key, false, q1)) :
    processNextItem c =
      { outcome := (processBody { c with Queue := q1 } key).1
        trace := [Event.get key false] ++ (processBody { c with Queue := q1 } key).2.1
                  ++ [Event.done key]
        c := { c with Queue := (processBody { c with Queue := q1 } key).2.2.Done key } } := by
  simp [processNextItem, hget]

theorem processBody_error_retry (c : Controller) (keyRaw e : String)
    (herr : (c.Informer.GetByKey keyRaw).err = some e)
    (hn : c.Queue.NumRequeues (Value.str keyRaw) < 5) :
    processBody c (Value.str keyRaw) =
      (Outcome.returned true,
       [Event.getByKey keyRaw, Event.log (LogMsg.errorRetrieving (Value.str keyRaw) e),
        Event.numRequeues (Value.str keyRaw) (c.Queue.NumRequeues (Value.str keyRaw)),
        Event.addRateLimited (Value.str keyRaw)],
       c.Queue.AddRateLimited (Value.str keyRaw)) := by
  simp [processBody, herr, hn]

theorem processBody_error_giveup (c : Controller) (keyRaw e : String)
    (herr : (c.Informer.GetByKey keyRaw).err = some e)
    (hn : ¬ c.Queue.NumRequeues (Value.str keyRaw) < 5) :
    processBody c (Value.str keyRaw) =
      (Outcome.returned true,
       [Event.getByKey keyRaw, Event.log (LogMsg.errorRetrieving (Value.str keyRaw) e),
        Event.numRequeues (Value.str keyRaw) (c.Queue.NumRequeues (Value.str keyRaw)),
        Event.log (LogMsg.maxRetriesExceeded (Value.str keyRaw)),
        Event.forget (Value.str keyRaw)],
       c.Queue.Forget (Value.str keyRaw)) := by
  simp [processBody, herr, hn]

theorem processBody_deleted (c : Controller) (keyRaw : String)
    (herr : (c.Informer.GetByKey keyRaw).err = none)
    (hex : (c.Informer.GetByKey keyRaw).exists = false) :
    processBody c (Value.str keyRaw) =
      if (c.Handler.ObjectDeleted (Value.str keyRaw)).panics then
        (Outcome.panicked,
         [Event.getByKey keyRaw, Event.objectDeleted (Value.str keyRaw)]
           ++ (c.Handler.ObjectDeleted (Value.str keyRaw)).logs.map Event.log,
         c.Queue)
      else
        (Outcome.returned true,
         [Event.getByKey keyRaw, Event.objectDeleted (Value.str keyRaw)]
           ++ (c.Handler.ObjectDeleted (Value.str keyRaw)).logs.map Event.log
           ++ [Event.forget (Value.str keyRaw)],
         c.Queue.Forget (Value.str keyRaw)) := by
  simp [processBody, herr, hex]

theorem processBody_created (c : Controller) (keyRaw : String)
    (herr : (c.Informer.GetByKey keyRaw).err = none)
    (hex : (c.Informer.GetByKey keyRaw).exists = true) :
    processBody c (Value.str keyRaw) =
      if (c.Handler.ObjectCreated (c.Informer.GetByKey keyRaw).item).panics then
        (Outcome.panicked,
         [Event.getByKey keyRaw, Event.objectCreated (c.Informer.GetByKey keyRaw).item]
           ++ (c.Handler.ObjectCreated (c.Informer.GetByKey keyRaw).item).logs.map Event.log,
         c.Queue)
      else
        (Outcome.returned true,
         [Event.getByKey keyRaw, Event.objectCreated (c.Informer.GetByKey keyRaw).item]
           ++ (c.Handler.ObjectCreated (c.Informer.GetByKey keyRaw).item).logs.map Event.log
           ++ [Event.forget (Value.str keyRaw)],
         c.Queue.Forget (Value.str keyRaw)) := by
  simp [processBody, herr, hex]

theorem processBody_not_string (c : Controller) (key : Value)
    (hk : ∀ keyRaw, key ≠ Value.str keyRaw) :
    processBody c key = (Outcome.panicked, [], c.Queue) := by
  cases key with
  | str s => exact absurd rfl (hk s)
  | nil => rfl
  | pod ns name => rfl
  | other tag => rfl

theorem processBody_filter_isDone (c : Controller) (key : Value) :
    (processBody c key).2.1.filter Event.isDone = [] := by
  cases key with
  | nil => rfl
  | pod ns name => rfl
  | other tag => rfl
  | str keyRaw =>
    cases herr : (c.Informer.GetByKey keyRaw).err with
    | some e =>
      by_cases hn : c.Queue.NumRequeues (Value.str keyRaw) < 5
      · rw [processBody_error_retry c keyRaw e herr hn]; rfl
      · rw [processBody_error_giveup c keyRaw e herr hn]; rfl
    | none =>
      cases hex : (c.Informer.GetByKey keyRaw).exists with
      | false =>
        rw [processBody_deleted c keyRaw herr hex]
        split <;> simp [List.filter_cons, Event.isDone, filter_isDone_logs]
      | true =>
        rw [processBody_created c keyRaw herr hex]
        split <;> simp [List.filter_cons, Event.isDone, filter_isDone_logs]

theorem processBody_outcome (c : Controller) (key : Value) :
    (processBody c key).1 = Outcome.returned true ∨ (processBody c key).1 = Outcome.panicked := by
  cases key with
  | nil => right; rfl
  | pod ns name => right; rfl
  | other tag => right; rfl
  | str keyRaw =>
    cases herr : (c.Informer.GetByKey keyRaw).err with
    | some e =>
      by_cases hn : c.Queue.NumRequeues (Value.str keyRaw) < 5
      · rw [processBody_error_retry c keyRaw e herr hn]; left; rfl
      · rw [processBody_error_giveup c keyRaw e herr hn]; left; rfl
    | none =>
      cases hex : (c.Informer.GetByKey keyRaw).exists with
      | false =>
        rw [processBody_deleted c keyRaw herr hex]
        split
        · right; rfl
        · left; rfl
      | true =>
        rw [processBody_created c keyRaw herr hex]
        split
        · right; rfl
        · left; rfl

/-! ## Deliveries of a key whose lookup fails -/

theorem delivery_retry (c : Controller) (keyRaw e : String)
    (hq : c.Queue.holdsOnly (Value.str keyRaw))
    (herr : (c.Informer.GetByKey keyRaw).err = some e)
    (hn : c.Queue.NumRequeues (Value.str keyRaw) < 5) :
    (delivery c).trace =
      [Event.get (Value.str keyRaw) false, Event.getByKey keyRaw,
       Event.log (LogMsg.errorRetrieving (Value.str keyRaw) e),
       Event.numRequeues (Value.str keyRaw) (c.Queue.NumRequeues (Value.str keyRaw)),
       Event.addRateLimited (Value.str keyRaw), Event.done (Value.str keyRaw)] ∧
    (delivery c).c.Queue.holdsOnly (Value.str keyRaw) ∧
    (delivery c).c.Queue.NumRequeues (Value.str keyRaw)
      = c.Queue.NumRequeues (Value.str keyRaw) + 1 ∧
    (delivery c).c.Informer = c.Informer := by
  obtain ⟨q, i, h⟩ := c
  obtain ⟨queue, dirty, processing, waiting, sd, failures⟩ := q
  obtain ⟨h1, h2, h3, h4, h5⟩ := hq
  simp only at h1 h2 h3 h4 h5 herr hn
  subst h1 h2 h3 h4 h5
  simp only [Queue.NumRequeues] at hn
  simp [delivery, processNextItem, Queue.Get, processBody, herr, hn, Queue.NumRequeues,
    Queue.AddRateLimited, Queue.Done, Queue.timerFires, Queue.Add, Queue.holdsOnly]

theorem delivery_giveup (c : Controller) (keyRaw e : String)
    (hq : c.Queue.holdsOnly (Value.str keyRaw))
    (herr : (c.Informer.GetByKey keyRaw).err = some e)
    (hn : ¬ c.Queue.NumRequeues (Value.str keyRaw) < 5) :
    (delivery c).trace =
      [Event.get (Value.str keyRaw) false, Event.getByKey keyRaw,
       Event.log (LogMsg.errorRetrieving (Value.str keyRaw) e),
       Event.numRequeues (Value.str keyRaw) (c.Queue.NumRequeues (Value.str keyRaw)),
       Event.log (LogMsg.maxRetriesExceeded (Value.str keyRaw)),
       Event.forget (Value.str keyRaw), Event.done (Value.str keyRaw)] ∧
    (delivery c).c.Queue.idle ∧
    (delivery c).c.Queue.NumRequeues (Value.str keyRaw) = 0 ∧
    (delivery c).c.Informer = c.Informer := by
  obtain ⟨q, i, h⟩ := c
  obtain ⟨queue, dirty, processing, waiting, sd, failures⟩ := q
  obtain ⟨h1, h2, h3, h4, h5⟩ := hq
  simp only at h1 h2 h3 h4 h5 herr hn
  subst h1 h2 h3 h4 h5
  simp only [Queue.NumRequeues] at hn
  simp [delivery, processNextItem, Queue.Get, processBody, herr, hn, Queue.NumRequeues,
    Queue.Forget, Queue.Done, Queue.timerFires, Queue.idle]

theorem delivery_idle (c : Controller) (hq : c.Queue.idle) :
    (delivery c).outcome = Outcome.blocked ∧ (delivery c).trace = [] ∧ (delivery c).c = c := by
  obtain ⟨q, i, h⟩ := c
  obtain ⟨queue, dirty, processing, waiting, sd, failures⟩ := q
  obtain ⟨h1, h2, h3, h4, h5⟩ := hq
  simp only at h1 h2 h3 h4 h5
  subst h1 h2 h3 h4 h5
  simp [delivery, processNextItem, Queue.Get, Queue.timerFires]

/-- Up to five failed deliveries: each one re-adds the key and the counter
counts them. -/
theorem deliveries_retrying (c : Controller) (keyRaw e : String)
    (hq : c.Queue.holdsOnly (Value.str keyRaw))
    (h0 : c.Queue.NumRequeues (Value.str keyRaw) = 0)
    (herr : (c.Informer.GetByKey keyRaw).err = some e) (n : Nat) (hn : n ≤ 5) :
    (deliveries n c).2.Queue.holdsOnly (Value.str keyRaw) ∧
    (deliveries n c).2.Queue.NumRequeues (Value.str keyRaw) = n ∧
    (deliveries n c).2.Informer = c.Informer ∧
    (deliveries n c).1.filter Event.isAddRateLimited
      = List.replicate n (Event.addRateLimited (Value.str keyRaw)) ∧
    (deliveries n c).1.filter Event.isForget = [] := by
  induction n with
  | zero => exact ⟨hq, h0, rfl, rfl, rfl⟩
  | succ m ih =>
    obtain ⟨ihq, ihn, ihi, iha, ihf⟩ := ih (by omega)
    have herr1 : ((deliveries m c).2.Informer.GetByKey keyRaw).err = some e := by
      rw [ihi]; exact herr
    have hlt : (deliveries m c).2.Queue.NumRequeues (Value.str keyRaw) < 5 := by
      rw [ihn]; omega
    obtain ⟨ht, hq1, hn1, hi1⟩ := delivery_retry (deliveries m c).2 keyRaw e ihq herr1 hlt
    refine ⟨hq1, ?_, ?_, ?_, ?_⟩
    · show (delivery (deliveries m c).2).c.Queue.NumRequeues (Value.str keyRaw) = m + 1
      rw [hn1, ihn]
    · show (delivery (deliveries m c).2).c.Informer = c.Informer
      rw [hi1, ihi]
    · show ((deliveries m c).1 ++ (delivery (deliveries m c).2).trace).filter
          Event.isAddRateLimited = _
      rw [List.filter_append, iha, ht]
      simp [List.filter_cons, Event.isAddRateLimited, List.replicate_succ']
    · show ((deliveries m c).1 ++ (delivery (deliveries m c).2).trace).filter
          Event.isForget = _
      rw [List.filter_append, ihf, ht]
      simp [List.filter_cons, Event.isForget]

/-- The sixth failed delivery observes the counter at 5, forgets the key and
schedules nothing. -/
theorem deliveries_sixth (c : Controller) (keyRaw e : String)
    (hq : c.Queue.holdsOnly (Value.str keyRaw))
    (h0 : c.Queue.NumRequeues (Value.str keyRaw) = 0)
    (herr : (c.Informer.GetByKey keyRaw).err = some e) :
    (delivery (deliveries 5 c).2).trace =
      [Event.get (Value.str keyRaw) false, Event.getByKey keyRaw,
       Event.log (LogMsg.errorRetrieving (Value.str keyRaw) e),
       Event.numRequeues (Value.str keyRaw) 5,
       Event.log (LogMsg.maxRetriesExceeded (Value.str keyRaw)),
       Event.forget (Value.str keyRaw), Event.done (Value.str keyRaw)] ∧
    (deliveries 6 c).2.Queue.idle ∧
    (deliveries 6 c).2.Queue.NumRequeues (Value.str keyRaw) = 0 ∧
    (deliveries 6 c).1.filter Event.isAddRateLimited
      = List.replicate 5 (Event.addRateLimited (Value.str keyRaw)) ∧
    (deliveries 6 c).1.filter Event.isForget = [Event.forget (Value.str keyRaw)] := by
  obtain ⟨ihq, ihn, ihi, iha, ihf⟩ := deliveries_retrying c keyRaw e hq h0 herr 5 (le_refl 5)
  have herr1 : ((deliveries 5 c).2.Informer.GetByKey keyRaw).err = some e := by
    rw [ihi]; exact herr
  have hge : ¬ (deliveries 5 c).2.Queue.NumRequeues (Value.str keyRaw) < 5 := by
    rw [ihn]; omega
  obtain ⟨ht, hq1, hn1, _⟩ := delivery_giveup (deliveries 5 c).2 keyRaw e ihq herr1 hge
  rw [ihn] at ht
  refine ⟨ht, hq1, hn1, ?_, ?_⟩
  · show ((deliveries 5 c).1 ++ (delivery (deliveries 5 c).2).trace).filter
        Event.isAddRateLimited = _
    rw [List.filter_append, iha, ht]
    simp [List.filter_cons, Event.isAddRateLimited]
  · show ((deliveries 5 c).1 ++ (delivery (deliveries 5 c).2).trace).filter
        Event.isForget = _
    rw [List.filter_append, ihf, ht]
    simp [List.filter_cons, Event.isForget]

/-- Once the queue is idle further deliveries do nothing: `Get` blocks. -/
theorem deliveries_of_idle (c : Controller) (m : Nat) (hq : (deliveries m c).2.Queue.idle)
    (n : Nat) : deliveries (m + n) c = deliveries m c := by
  induction n with
  | zero => rfl
  | succ k ih =>
    have hstep : deliveries (m + (k + 1)) c =
        ((deliveries (m + k) c).1 ++ (delivery (deliveries (m + k) c).2).trace,
         (delivery (deliveries (m + k) c).2).c) := rfl
    rw [hstep, ih]
    obtain ⟨_, ht, hc⟩ := delivery_idle (deliveries m c).2 hq
    rw [ht, hc, List.append_nil]

/-! ## Lemmas on sync-gated traces -/

theorem syncGated_append_of_mem (t es : List Event) (hg : syncGated t = true)
    (hm : Event.hasSynced true ∈ t) : syncGated (t ++ es) = true := by
  induction t with
  | nil => cases hm
  | cons a t ih =>
    by_cases ha : a = Event.hasSynced true
    · simp [syncGated, ha]
    · have hm1 : Event.hasSynced true ∈ t := by
        rcases List.mem_cons.mp hm with h | h
        · exact absurd h.symm ha
        · exact h
      simp only [syncGated, ha, if_false, Bool.and_eq_true] at hg
      simp only [List.cons_append, syncGated, ha, if_false, Bool.and_eq_true]
      exact ⟨hg.1, ih hg.2 hm1⟩

theorem syncGated_append_of_not_worker (t es : List Event) (hg : syncGated t = true)
    (hes : ∀ e ∈ es, e.isWorkerCall = false) : syncGated (t ++ es) = true := by
  induction t with
  | nil =>
    induction es with
    | nil => rfl
    | cons b es ih =>
      have hb := hes b (List.mem_cons_self _ _)
      have := ih (fun e he => hes e (List.mem_cons_of_mem _ he))
      simp only [List.nil_append] at this ⊢
      simp only [syncGated]
      split
      · rfl
      · simp [hb, this]
  | cons a t ih =>
    by_cases ha : a = Event.hasSynced true
    · simp [syncGated, ha]
    · simp only [syncGated, ha, if_false, Bool.and_eq_true] at hg
      simp only [List.cons_append, syncGated, ha, if_false, Bool.and_eq_true]
      exact ⟨hg.1, ih hg.2⟩

theorem syncGated_spec (t : List Event) (hg : syncGated t = true) :
    ∀ pre e post, t = pre ++ e :: post → e.isWorkerCall = true →
      Event.hasSynced true ∈ pre := by
  induction t with
  | nil => intro pre e post h; simp at h
  | cons a t ih =>
    intro pre e post h hw
    cases pre with
    | nil =>
      simp only [List.nil_append, List.cons.injEq] at h
      obtain ⟨rfl, _⟩ := h
      by_cases ha : a = Event.hasSynced true
      · subst ha; simp [Event.isWorkerCall, Event.isGet, Event.isHandlerCall] at hw
      · simp [syncGated, ha, hw] at hg
    | cons b pre =>
      simp only [List.cons_append, List.cons.injEq] at h
      obtain ⟨rfl, h⟩ := h
      by_cases ha : a = Event.hasSynced true
      · subst ha; exact List.mem_cons_self _ _
      · simp only [syncGated, ha, if_false, Bool.and_eq_true] at hg
        exact List.mem_cons_of_mem _ (ih hg.2 pre e post h hw)

/-! ## Lemmas on the event handler of main.go and on the informer -/

theorem Queue.Add_shuttingDown (q : Queue) (key : Value) :
    (q.Add key).shuttingDown = q.shuttingDown := by
  unfold Queue.Add
  split
  · rfl
  · split
    · rfl
    · split <;> rfl

theorem Queue.timerFires_shuttingDown (q : Queue) :
    q.timerFires.shuttingDown = q.shuttingDown := by
  unfold Queue.timerFires
  split
  · rfl
  · rw [Queue.Add_shuttingDown]

theorem dispatch_eventHandlers (i : SharedIndexInformer) (hi : i.handlers = eventHandlers)
    (n : Notification) (q : Queue) :
    ((i.dispatch n q).1 = [] ∧ (i.dispatch n q).2 = q) ∨
    (∃ key, (i.dispatch n q).1 = [Event.add (Value.str key)] ∧
      (i.dispatch n q).2 = q.Add (Value.str key)) := by
  cases n with
  | added obj =>
    simp only [SharedIndexInformer.dispatch, hi, ResourceEventHandlerFuncs.OnAdd, eventHandlers]
    cases h : MetaNamespaceKeyFunc obj with
    | ok key => right; exact ⟨key, rfl, rfl⟩
    | error e => left; exact ⟨rfl, rfl⟩
  | updated o1 o2 => left; simp [SharedIndexInformer.dispatch, hi,
      ResourceEventHandlerFuncs.OnUpdate, eventHandlers]
  | deleted obj => left; simp [SharedIndexInformer.dispatch, hi,
      ResourceEventHandlerFuncs.OnDelete, eventHandlers]

theorem store_handlers (i : SharedIndexInformer) (n : Notification) :
    (i.store n).handlers = i.handlers ∧ (i.store n).HasSynced = i.HasSynced := by
  cases n with
  | added obj => simp only [SharedIndexInformer.store]; split <;> exact ⟨rfl, rfl⟩
  | updated o1 o2 => simp only [SharedIndexInformer.store]; split <;> exact ⟨rfl, rfl⟩
  | deleted obj => simp only [SharedIndexInformer.store]; split <;> exact ⟨rfl, rfl⟩

/-! ## What a pass leaves untouched -/

theorem processBody_isPassCall (c : Controller) (key : Value) :
    ∀ e ∈ (processBody c key).2.1, e.isPassCall = true := by
  cases key with
  | nil => simp [processBody]
  | pod ns name => simp [processBody]
  | other tag => simp [processBody]
  | str keyRaw =>
    cases herr : (c.Informer.GetByKey keyRaw).err with
    | some e =>
      by_cases hn : c.Queue.NumRequeues (Value.str keyRaw) < 5
      · rw [processBody_error_retry c keyRaw e herr hn]; simp [Event.isPassCall]
      · rw [processBody_error_giveup c keyRaw e herr hn]; simp [Event.isPassCall]
    | none =>
      cases hex : (c.Informer.GetByKey keyRaw).exists with
      | false =>
        rw [processBody_deleted c keyRaw herr hex]
        split <;> (simp [Event.isPassCall]; try aesop)
      | true =>
        rw [processBody_created c keyRaw herr hex]
        split <;> (simp [Event.isPassCall]; try aesop)

theorem processNextItem_isPassCall (c : Controller) :
    ∀ e ∈ (processNextItem c).trace, e.isPassCall = true := by
  cases hget : c.Queue.Get with
  | none => rw [(processNextItem_blocked c hget).2]; simp
  | some r =>
    obtain ⟨key, quit, q1⟩ := r
    cases quit with
    | true => rw [(processNextItem_quit c key q1 hget).2]; simp [Event.isPassCall]
    | false =>
      rw [processNextItem_claimed c key q1 hget]
      intro e he
      simp only [List.mem_append, List.mem_singleton, List.mem_cons, List.not_mem_nil,
        or_false] at he
      rcases he with (rfl | he) | rfl
      · rfl
      · exact processBody_isPassCall _ key e he
      · rfl

theorem processNextItem_Informer (c : Controller) :
    (processNextItem c).c.Informer = c.Informer ∧ (processNextItem c).c.Handler = c.Handler := by
  unfold processNextItem
  split
  · exact ⟨rfl, rfl⟩
  · split <;> exact ⟨rfl, rfl⟩

/-! ## The invariant is kept by every move -/

theorem RunInv_init (c : Controller) (stop : Bool) (hc : c.Informer.handlers = eventHandlers) :
    RunInv (Run c stop) := by
  refine ⟨hc, rfl, ?_, ?_, ?_, ?_, ?_, ?_⟩ <;> simp [Run]

theorem RunInv_env (s : RunState) (c1 : Controller) (es : List Event) (stop1 : Bool)
    (hinv : RunInv s)
    (hh : c1.Informer.handlers = s.c.Informer.handlers)
    (hs : c1.Informer.HasSynced = true ∨ c1.Informer.HasSynced = s.c.Informer.HasSynced)
    (hq : c1.Queue.shuttingDown = s.c.Queue.shuttingDown)
    (hes : ∀ e ∈ es, ∃ k, e = Event.add k)
    (hstop : stop1 = true ∨ stop1 = s.stop) :
    RunInv { s with c := c1, trace := s.trace ++ es, stop := stop1 } := by
  obtain ⟨h0, h1, h2, h3, h4, h5, h6, h7⟩ := hinv
  have hnot : ∀ e ∈ es, e.isWorkerCall = false := by
    intro e he
    obtain ⟨k, rfl⟩ := hes e he
    rfl
  have hsyn : Event.hasSynced true ∉ es := by
    intro he
    obtain ⟨k, hk⟩ := hes _ he
    cases hk
  have herr : Event.handleError "error syncing cache" ∉ es := by
    intro he
    obtain ⟨k, hk⟩ := hes _ he
    cases hk
  refine ⟨hh.trans h0, syncGated_append_of_not_worker _ _ h1 hnot, ?_, ?_, ?_, ?_, ?_, ?_⟩
  · intro hm
    simp only [List.mem_append, hsyn, or_false] at hm
    rcases hs with hs | hs
    · exact hs
    · exact hs.trans (h2 hm)
  · intro hpc
    simp only [List.mem_append, hsyn, herr, or_false]
    exact h3 hpc
  · intro hpc
    simp only [List.mem_append, hsyn, herr, or_false]
    exact h4 hpc
  · intro hm
    simp only [List.mem_append, hsyn, herr, or_false] at hm ⊢
    exact h5 hm
  · intro hpc
    obtain ⟨ha, hb⟩ := h6 hpc
    exact ⟨List.mem_append_left _ ha, hq.trans hb⟩
  · intro hm
    simp only [List.mem_append, herr, or_false] at hm
    rcases hstop with h | h
    · exact h
    · exact h.trans (h7 hm)

theorem RunInv_worker (s : RunState) (pc1 : Pc) (p1 : Bool) (hinv : RunInv s)
    (hpc : s.pc = Pc.inWorker)
    (hpc1 : pc1 = Pc.inWorker ∨ pc1 = Pc.untilSleep ∨ pc1 = Pc.deferred) :
    RunInv { s with c := (processNextItem s.c).c
                    trace := s.trace ++ (processNextItem s.c).trace
                    pc := pc1, panicking := p1 } := by
  obtain ⟨h0, h1, h2, h3, h4, h5, h6, h7⟩ := hinv
  obtain ⟨hsyn, herr⟩ := h3 (Or.inr (Or.inl hpc))
  have hpass := processNextItem_isPassCall s.c
  have hi := (processNextItem_Informer s.c).1
  have hsyn1 : Event.hasSynced true ∈ s.trace ++ (processNextItem s.c).trace :=
    List.mem_append_left _ hsyn
  have herr1 : Event.handleError "error syncing cache" ∉
      s.trace ++ (processNextItem s.c).trace := by
    intro hm
    rcases List.mem_append.mp hm with hm | hm
    · exact herr hm
    · have := hpass _ hm
      simp [Event.isPassCall] at this
  refine ⟨?_, syncGated_append_of_mem _ _ h1 hsyn, ?_, ?_, ?_, ?_, ?_, ?_⟩
  · show (processNextItem s.c).c.Informer.handlers = eventHandlers
    rw [hi]; exact h0
  · intro _
    show (processNextItem s.c).c.Informer.HasSynced = true
    rw [hi]; exact h2 hsyn
  · intro _; exact ⟨hsyn1, herr1⟩
  · intro h
    rcases hpc1 with rfl | rfl | rfl <;> simp at h
  · intro h; exact absurd h herr1
  · intro h
    rcases hpc1 with rfl | rfl | rfl <;> simp at h
  · intro h
    rcases h with h | h
    · rcases hpc1 with rfl | rfl | rfl <;> simp at h
    · exact absurd h herr1

theorem RunInv_step (s s1 : RunState) (l : Label) (hinv : RunInv s)
    (hstep : step s l = some s1) : RunInv s1 := by
  cases l with
  | closeStop =>
    simp only [step, runWorker] at hstep
    split at hstep
    · cases hstep
    · cases hstep
      have := RunInv_env s s.c [] true hinv rfl (Or.inr rfl) rfl (by simp) (Or.inl rfl)
      simpa using this
  | informerSynced =>
    simp only [step, runWorker] at hstep
    split at hstep
    · cases hstep
      have := RunInv_env s { s.c with Informer := { s.c.Informer with HasSynced := true } } []
        s.stop hinv rfl (Or.inl rfl) rfl (by simp) (Or.inr rfl)
      simpa using this
    · cases hstep
  | notify n =>
    simp only [step, runWorker] at hstep
    split at hstep
    · cases hstep
      have hd := dispatch_eventHandlers s.c.Informer hinv.1 n s.c.Queue
      have hst := store_handlers s.c.Informer n
      have := RunInv_env s
        { s.c with Informer := s.c.Informer.store n
                   Queue := (s.c.Informer.dispatch n s.c.Queue).2 }
        (s.c.Informer.dispatch n s.c.Queue).1 s.stop hinv hst.1 (Or.inr hst.2)
        (by
          rcases hd with ⟨_, h⟩ | ⟨k, _, h⟩
          · show (s.c.Informer.dispatch n s.c.Queue).2.shuttingDown = _
            rw [h]
          · show (s.c.Informer.dispatch n s.c.Queue).2.shuttingDown = _
            rw [h, Queue.Add_shuttingDown])
        (by
          rcases hd with ⟨h, _⟩ | ⟨k, h, _⟩
          · rw [h]; simp
          · rw [h]; simp)
        (Or.inr rfl)
      exact this
    · cases hstep
  | backoffElapsed =>
    simp only [step, runWorker] at hstep
    cases hstep
    have := RunInv_env s { s.c with Queue := s.c.Queue.timerFires } [] s.stop hinv rfl
      (Or.inr rfl) (Queue.timerFires_shuttingDown _) (by simp) (Or.inr rfl)
    simpa using this
  | tick =>
    obtain ⟨h0, h1, h2, h3, h4, h5, h6, h7⟩ := hinv
    simp only [step, runWorker] at hstep
    split at hstep
    · rename_i hpc
      obtain ⟨hsyn, herr, hp⟩ := h4 (Or.inr (Or.inl hpc))
      split at hstep
      · rename_i hs
        cases hstep
        refine ⟨h0, ?_, ?_, ?_, ?_, ?_, ?_, ?_⟩
        · exact syncGated_append_of_not_worker _ _ h1 (by
            intro e he
            simp only [List.mem_cons, List.mem_singleton, List.not_mem_nil, or_false] at he
            rcases he with rfl | rfl <;> rfl)
        · intro _; exact hs
        · intro _; simp [herr]
        · intro h; simp at h
        · intro h; simp [herr] at h
        · intro h; simp at h
        · rintro (h | h) <;> simp [herr] at h
      · cases hstep
        refine ⟨h0, ?_, ?_, ?_, ?_, ?_, ?_, ?_⟩
        · exact syncGated_append_of_not_worker _ _ h1 (by
            intro e he
            simp only [List.mem_singleton] at he
            subst he; rfl)
        · intro h; simp [hsyn] at h
        · intro h; simp [hpc] at h
        · intro _; simp [hsyn, herr, hp]
        · intro h; simp [herr] at h
        · intro h; simp [hpc] at h
        · rintro (h | h) <;> simp [hpc, herr] at h
    · rename_i hpc
      cases hstep
      obtain ⟨hsyn, herr⟩ := h3 (Or.inr (Or.inr hpc))
      refine ⟨h0, h1, h2, ?_, ?_, ?_, ?_, ?_⟩
      · intro _; exact ⟨hsyn, herr⟩
      · intro h; simp at h
      · intro h; exact absurd h herr
      · intro h; simp at h
      · rintro (h | h) <;> simp [herr] at h
    · cases hstep
  | stopSeen =>
    obtain ⟨h0, h1, h2, h3, h4, h5, h6, h7⟩ := hinv
    simp only [step, runWorker] at hstep
    split at hstep
    · rename_i hpc
      obtain ⟨hsyn, herr, hp⟩ := h4 (Or.inr (Or.inl hpc))
      split at hstep
      · cases hstep
        refine ⟨h0, h1, h2, ?_, ?_, ?_, ?_, ?_⟩
        · intro h; simp at h
        · intro _; exact ⟨hsyn, herr, hp⟩
        · intro h; exact absurd h herr
        · intro h; simp at h
        · intro _; assumption
      · cases hstep
    · rename_i hpc
      obtain ⟨hsyn, herr⟩ := h3 (Or.inr (Or.inr hpc))
      split at hstep
      · cases hstep
        refine ⟨h0, h1, h2, ?_, ?_, ?_, ?_, ?_⟩
        · intro h; simp at h
        · intro h; simp at h
        · intro h; exact absurd h herr
        · intro h; simp at h
        · rintro (h | h) <;> simp [herr] at h
      · cases hstep
    · cases hstep
  | run =>
    simp only [step, runWorker] at hstep
    split at hstep
    · -- entry
      rename_i hpc
      obtain ⟨h0, h1, h2, h3, h4, h5, h6, h7⟩ := hinv
      obtain ⟨hsyn, herr, hp⟩ := h4 (Or.inl hpc)
      cases hstep
      refine ⟨h0, ?_, ?_, ?_, ?_, ?_, ?_, ?_⟩
      · exact syncGated_append_of_not_worker _ _ h1 (by
          intro e he
          simp only [List.mem_cons, List.mem_singleton, List.not_mem_nil, or_false] at he
          rcases he with rfl | rfl <;> rfl)
      · intro h; simp [hsyn] at h
      · intro h; simp at h
      · intro _; simp [hsyn, herr, hp]
      · intro h; simp [herr] at h
      · intro h; simp at h
      · rintro (h | h) <;> simp [herr] at h
    · -- syncFailed
      rename_i hpc
      obtain ⟨h0, h1, h2, h3, h4, h5, h6, h7⟩ := hinv
      obtain ⟨hsyn, herr, hp⟩ := h4 (Or.inr (Or.inr hpc))
      cases hstep
      refine ⟨h0, ?_, ?_, ?_, ?_, ?_, ?_, ?_⟩
      · exact syncGated_append_of_not_worker _ _ h1 (by
          intro e he
          simp only [List.mem_singleton] at he
          subst he; rfl)
      · intro h; simp [hsyn] at h
      · intro h; simp at h
      · intro h; simp at h
      · intro _; simp [hsyn, hp]
      · intro h; simp at h
      · intro _; exact h7 (Or.inl hpc)
    · -- untilCheck
      rename_i hpc
      obtain ⟨h0, h1, h2, h3, h4, h5, h6, h7⟩ := hinv
      obtain ⟨hsyn, herr⟩ := h3 (Or.inl hpc)
      split at hstep
      · cases hstep
        refine ⟨h0, h1, h2, ?_, ?_, ?_, ?_, ?_⟩
        · intro h; simp at h
        · intro h; simp at h
        · intro h; exact absurd h herr
        · intro h; simp at h
        · rintro (h | h) <;> simp [herr] at h
      · cases hstep
        refine ⟨h0, h1, h2, ?_, ?_, ?_, ?_, ?_⟩
        · intro _; exact ⟨hsyn, herr⟩
        · intro h; simp at h
        · intro h; exact absurd h herr
        · intro h; simp at h
        · rintro (h | h) <;> simp [herr] at h
    · -- inWorker
      rename_i hpc
      split at hstep
      · cases hstep
      · cases hstep
        have h := RunInv_worker s Pc.inWorker s.panicking hinv hpc (Or.inl rfl)
        rw [← hpc] at h
        exact h
      · cases hstep
        exact RunInv_worker s Pc.untilSleep s.panicking hinv hpc (Or.inr (Or.inl rfl))
      · cases hstep
        exact RunInv_worker s Pc.deferred true hinv hpc (Or.inr (Or.inr rfl))
    · -- deferred
      rename_i hpc
      obtain ⟨h0, h1, h2, h3, h4, h5, h6, h7⟩ := hinv
      cases hstep
      refine ⟨h0, ?_, ?_, ?_, ?_, ?_, ?_, ?_⟩
      · exact syncGated_append_of_not_worker _ _ h1 (by
          intro e he
          simp only [List.mem_singleton] at he
          subst he; rfl)
      · intro h
        simp only [List.mem_append, List.mem_singleton] at h
        rcases h with h | h
        · exact h2 h
        · cases h
      · intro h
        cases hp : s.panicking <;> simp [hp] at h
      · intro h
        cases hp : s.panicking <;> simp [hp] at h
      · intro h
        simp only [List.mem_append, List.mem_singleton] at h
        rcases h with h | h
        · obtain ⟨ha, _, hp⟩ := h5 h
          simp [ha, hp]
        · cases h
      · intro _
        simp [Queue.ShutDown]
      · rintro (h | h)
        · cases hp : s.panicking <;> simp [hp] at h
        · simp only [List.mem_append, List.mem_singleton] at h
          rcases h with h | h
          · exact h7 (Or.inr h)
          · cases h
    · cases hstep

theorem RunInv_steps (ls : List Label) (s s1 : RunState) (hinv : RunInv s)
    (hsteps : steps s ls = some s1) : RunInv s1 := by
  induction ls generalizing s with
  | nil => simp only [steps, Option.some.injEq] at hsteps; subst hsteps; exact hinv
  | cons l ls ih =>
    simp only [steps] at hsteps
    cases hstep : step s l with
    | none => simp [hstep] at hsteps
    | some s2 =>
      simp only [hstep, Option.bind_some] at hsteps
      exact ih s2 (RunInv_step s s2 l hinv hstep) hsteps


/-! ## A worker parked in Get stays parked -/

theorem processNextItem_queue (c : Controller) (keyRaw : String) (q1 : Queue)
    (hget : c.Queue.Get = some (Value.str keyRaw, false, q1))
    (hp : ∀ v, (c.Handler.ObjectCreated v).panics = false ∧
      (c.Handler.ObjectDeleted v).panics = false) :
    (processNextItem c).outcome = Outcome.returned true ∧
    (processNextItem c).c.Queue.shuttingDown = c.Queue.shuttingDown ∧
    (∀ k ∈ (processNextItem c).c.Queue.queue, k ∈ c.Queue.queue) ∧
    (∀ k ∈ (processNextItem c).c.Queue.waiting,
      k ∈ c.Queue.waiting ∨ k = Value.str keyRaw) := by
  have hq1 : q1.shuttingDown = c.Queue.shuttingDown ∧ q1.waiting = c.Queue.waiting ∧
      c.Queue.queue = Value.str keyRaw :: q1.queue := by
    unfold Queue.Get at hget
    split at hget
    · rename_i k rest hk
      simp only [Option.some.injEq, Prod.mk.injEq] at hget
      obtain ⟨rfl, _, rfl⟩ := hget
      exact ⟨rfl, rfl, hk⟩
    · split at hget <;> simp at hget
  obtain ⟨hsd, hw, hqq⟩ := hq1
  rw [processNextItem_claimed c _ q1 hget]
  have hDone : ∀ q : Queue, q.shuttingDown = q1.shuttingDown → q.queue = q1.queue →
      (q.waiting = q1.waiting ∨ q.waiting = q1.waiting ++ [Value.str keyRaw]) →
      (q.Done (Value.str keyRaw)).shuttingDown = c.Queue.shuttingDown ∧
      (∀ k ∈ (q.Done (Value.str keyRaw)).queue, k ∈ c.Queue.queue) ∧
      (∀ k ∈ (q.Done (Value.str keyRaw)).waiting,
        k ∈ c.Queue.waiting ∨ k = Value.str keyRaw) := by
    intro q h1 h2 h3
    unfold Queue.Done
    simp only
    split
    · refine ⟨h1.trans hsd, ?_, ?_⟩
      · intro k hk
        simp only [List.mem_append, List.mem_singleton, h2] at hk
        rw [hqq]
        rcases hk with hk | hk
        · exact List.mem_cons_of_mem _ hk
        · subst hk; exact List.mem_cons_self _ _
      · intro k hk
        rcases h3 with h3 | h3
        · left; rw [← hw, ← h3]; exact hk
        · simp only [h3, List.mem_append, List.mem_singleton] at hk
          rcases hk with hk | hk
          · left; rw [← hw]; exact hk
          · right; exact hk
    · refine ⟨h1.trans hsd, ?_, ?_⟩
      · intro k hk
        simp only [h2] at hk
        rw [hqq]
        exact List.mem_cons_of_mem _ hk
      · intro k hk
        rcases h3 with h3 | h3
        · left; rw [← hw, ← h3]; exact hk
        · simp only [h3, List.mem_append, List.mem_singleton] at hk
          rcases hk with hk | hk
          · left; rw [← hw]; exact hk
          · right; exact hk
  cases herr : (c.Informer.GetByKey keyRaw).err with
  | some e =>
    by_cases hn : q1.NumRequeues (Value.str keyRaw) < 5
    · rw [processBody_error_retry { c with Queue := q1 } keyRaw e herr hn]
      refine ⟨rfl, hDone _ ?_ ?_ ?_⟩
      · unfold Queue.AddRateLimited; simp only; split <;> rfl
      · unfold Queue.AddRateLimited; simp only; split <;> rfl
      · unfold Queue.AddRateLimited; simp only
        split
        · left; rfl
        · right; rfl
    · rw [processBody_error_giveup { c with Queue := q1 } keyRaw e herr hn]
      exact ⟨rfl, hDone _ rfl rfl (Or.inl rfl)⟩
  | none =>
    cases hex : (c.Informer.GetByKey keyRaw).exists with
    | false =>
      rw [processBody_deleted { c with Queue := q1 } keyRaw herr hex]
      simp only [(hp (Value.str keyRaw)).2, Bool.false_eq_true, if_false]
      exact ⟨trivial, hDone _ rfl rfl (Or.inl rfl)⟩
    | true =>
      rw [processBody_created { c with Queue := q1 } keyRaw herr hex]
      simp only [(hp _).1, Bool.false_eq_true, if_false]
      exact ⟨trivial, hDone _ rfl rfl (Or.inl rfl)⟩

theorem Parked_step (s s1 : RunState) (l : Label) (hpark : Parked s)
    (hstep : step s l = some s1) : Parked s1 := by
  obtain ⟨hpc, hsd, hno, hh, hp, hq, hw⟩ := hpark
  cases l with
  | closeStop =>
    simp only [step, runWorker] at hstep
    split at hstep
    · cases hstep
    · cases hstep; exact ⟨hpc, hsd, hno, hh, hp, hq, hw⟩
  | informerSynced =>
    simp only [step, runWorker] at hstep
    split at hstep
    · cases hstep; exact ⟨hpc, hsd, hno, hh, hp, hq, hw⟩
    · cases hstep
  | notify n =>
    simp only [step, runWorker] at hstep
    split at hstep
    · cases hstep
      have hst := store_handlers s.c.Informer n
      rcases dispatch_eventHandlers s.c.Informer hh n s.c.Queue with ⟨h1, h2⟩ | ⟨key, h1, h2⟩
      · refine ⟨hpc, ?_, ?_, hst.1.trans hh, hp, ?_, ?_⟩
        · show (s.c.Informer.dispatch n s.c.Queue).2.shuttingDown = false
          rw [h2]; exact hsd
        · show Event.shutDown ∉ s.trace ++ (s.c.Informer.dispatch n s.c.Queue).1
          rw [h1]; simpa using hno
        · show ∀ k ∈ (s.c.Informer.dispatch n s.c.Queue).2.queue, _
          rw [h2]; exact hq
        · show ∀ k ∈ (s.c.Informer.dispatch n s.c.Queue).2.waiting, _
          rw [h2]; exact hw
      · refine ⟨hpc, ?_, ?_, hst.1.trans hh, hp, ?_, ?_⟩
        · show (s.c.Informer.dispatch n s.c.Queue).2.shuttingDown = false
          rw [h2, Queue.Add_shuttingDown]; exact hsd
        · show Event.shutDown ∉ s.trace ++ (s.c.Informer.dispatch n s.c.Queue).1
          rw [h1]; simpa using hno
        · show ∀ k ∈ (s.c.Informer.dispatch n s.c.Queue).2.queue, _
          rw [h2]
          intro k hk
          unfold Queue.Add at hk
          simp only [hsd, Bool.false_eq_true, if_false] at hk
          split at hk
          · exact hq k hk
          · split at hk
            · exact hq k hk
            · simp only [List.mem_append, List.mem_singleton] at hk
              rcases hk with hk | hk
              · exact hq k hk
              · exact ⟨key, hk⟩
        · show ∀ k ∈ (s.c.Informer.dispatch n s.c.Queue).2.waiting, _
          rw [h2]
          intro k hk
          unfold Queue.Add at hk
          simp only [hsd, Bool.false_eq_true, if_false] at hk
          split at hk
          · exact hw k hk
          · split at hk <;> exact hw k hk
    · cases hstep
  | backoffElapsed =>
    simp only [step, runWorker] at hstep
    cases hstep
    refine ⟨hpc, ?_, hno, hh, hp, ?_, ?_⟩
    · show s.c.Queue.timerFires.shuttingDown = false
      rw [Queue.timerFires_shuttingDown]; exact hsd
    · show ∀ k ∈ s.c.Queue.timerFires.queue, _
      intro k hk
      unfold Queue.timerFires at hk
      split at hk
      · exact hq k hk
      · rename_i key rest hkr
        have hkey : ∃ keyRaw, key = Value.str keyRaw := hw key (by rw [hkr]; simp)
        unfold Queue.Add at hk
        simp only [hsd, Bool.false_eq_true, if_false] at hk
        split at hk
        · exact hq k hk
        · split at hk
          · exact hq k hk
          · simp only [List.mem_append, List.mem_singleton] at hk
            rcases hk with hk | hk
            · exact hq k hk
            · subst hk; exact hkey
    · show ∀ k ∈ s.c.Queue.timerFires.waiting, _
      intro k hk
      unfold Queue.timerFires at hk
      split at hk
      · exact hw k hk
      · rename_i key rest hkr
        have hsub : ∀ x ∈ rest, ∃ keyRaw, x = Value.str keyRaw := by
          intro x hx; exact hw x (by rw [hkr]; exact List.mem_cons_of_mem _ hx)
        unfold Queue.Add at hk
        simp only [hsd, Bool.false_eq_true, if_false] at hk
        split at hk
        · exact hsub k hk
        · split at hk <;> exact hsub k hk
  | tick => simp [step, runWorker, hpc] at hstep
  | stopSeen => simp [step, runWorker, hpc] at hstep
  | run =>
    cases hget : s.c.Queue.Get with
    | none =>
      have hb := (processNextItem_blocked s.c hget).1
      simp [step, runWorker, hpc, hb] at hstep
    | some r =>
      obtain ⟨key, quit, q1⟩ := r
      cases quit with
      | true =>
        have := (Queue.Get_quit_iff _ _ _ _ hget).mp rfl
        rw [hsd] at this
        simp at this
      | false =>
        have hkey : ∃ keyRaw, key = Value.str keyRaw := by
          apply hq
          unfold Queue.Get at hget
          split at hget
          · rename_i k rest hk
            simp only [Option.some.injEq, Prod.mk.injEq] at hget
            rw [hk, ← hget.1]; exact List.mem_cons_self _ _
          · split at hget <;> simp at hget
        obtain ⟨keyRaw, rfl⟩ := hkey
        obtain ⟨hout, hsd1, hq1, hw1⟩ := processNextItem_queue s.c keyRaw q1 hget hp
        simp only [step, runWorker, hpc, hout] at hstep
        cases hstep
        have hI := processNextItem_Informer s.c
        refine ⟨rfl, hsd1.trans hsd, ?_, ?_, ?_, ?_, ?_⟩
        · show Event.shutDown ∉ s.trace ++ (processNextItem s.c).trace
          intro hm
          rcases List.mem_append.mp hm with hm | hm
          · exact hno hm
          · have := processNextItem_isPassCall s.c _ hm
            simp [Event.isPassCall] at this
        · show (processNextItem s.c).c.Informer.handlers = eventHandlers
          rw [hI.1]; exact hh
        · show ∀ v, ((processNextItem s.c).c.Handler.ObjectCreated v).panics = false ∧ _
          rw [hI.2]; exact hp
        · intro k hk; exact hq k (hq1 k hk)
        · intro k hk
          rcases hw1 k hk with h | h
          · exact hw k h
          · exact ⟨keyRaw, h⟩

theorem Parked_steps (ls : List Label) (s s1 : RunState) (hpark : Parked s)
    (hsteps : steps s ls = some s1) : Parked s1 := by
  induction ls generalizing s with
  | nil => simp only [steps, Option.some.injEq] at hsteps; subst hsteps; exact hpark
  | cons l ls ih =>
    simp only [steps] at hsteps
    cases hstep : step s l with
    | none => simp [hstep] at hsteps
    | some s2 =>
      simp only [hstep, Option.bind_some] at hsteps
      exact ih s2 (Parked_step s s2 l hpark hstep) hsteps


/-! ## Failure episodes -/

theorem Queue.Get_of_map (q : Queue) (key : Value) (quit : Bool)
    (h : (q.Get.map fun r => (r.1, r.2.1)) = some (key, quit)) :
    ∃ q1, q.Get = some (key, quit, q1) := by
  cases hg : q.Get with
  | none => simp [hg] at h
  | some r =>
    obtain ⟨k, b, q1⟩ := r
    simp only [hg, Option.map_some', Option.some.injEq, Prod.mk.injEq] at h
    obtain ⟨rfl, rfl⟩ := h
    exact ⟨q1, rfl⟩

theorem pass_lookup_error (c : Controller) (keyRaw : String)
    (hget : (c.Queue.Get.map fun r => (r.1, r.2.1)) = some (Value.str keyRaw, false))
    (herr : (c.Informer.GetByKey keyRaw).err ≠ none) :
    (c.Queue.NumRequeues (Value.str keyRaw) < 5 →
      (processNextItem c).trace.filter Event.isAddRateLimited
        = [Event.addRateLimited (Value.str keyRaw)] ∧
      (processNextItem c).trace.filter Event.isForget = [] ∧
      (processNextItem c).c.Queue.NumRequeues (Value.str keyRaw)
        = c.Queue.NumRequeues (Value.str keyRaw) + 1) ∧
    (¬ c.Queue.NumRequeues (Value.str keyRaw) < 5 →
      (processNextItem c).trace.filter Event.isForget = [Event.forget (Value.str keyRaw)] ∧
      (processNextItem c).trace.filter Event.isAddRateLimited = [] ∧
      (processNextItem c).c.Queue.NumRequeues (Value.str keyRaw) = 0 ∧
      Event.log (LogMsg.maxRetriesExceeded (Value.str keyRaw)) ∈ (processNextItem c).trace) := by
  obtain ⟨q1, hget⟩ := Queue.Get_of_map _ _ _ hget
  obtain ⟨e, he⟩ : ∃ e, (c.Informer.GetByKey keyRaw).err = some e := by
    cases h : (c.Informer.GetByKey keyRaw).err with
    | none => exact absurd h herr
    | some e => exact ⟨e, rfl⟩
  have hf : q1.failures = c.Queue.failures := Queue.Get_failures _ _ _ _ hget
  have hnum : q1.NumRequeues (Value.str keyRaw) = c.Queue.NumRequeues (Value.str keyRaw) := by
    simp [Queue.NumRequeues, hf]
  rw [processNextItem_claimed c _ q1 hget]
  by_cases hn : c.Queue.NumRequeues (Value.str keyRaw) < 5
  · have hn1 : q1.NumRequeues (Value.str keyRaw) < 5 := by rw [hnum]; exact hn
    rw [processBody_error_retry { c with Queue := q1 } keyRaw e he hn1]
    refine ⟨fun _ => ⟨rfl, rfl, ?_⟩, fun h => absurd hn h⟩
    simp [Queue.NumRequeues_AddRateLimited_Done, hnum]
  · have hn1 : ¬ q1.NumRequeues (Value.str keyRaw) < 5 := by rw [hnum]; exact hn
    rw [processBody_error_giveup { c with Queue := q1 } keyRaw e he hn1]
    refine ⟨fun h => absurd h hn, fun _ => ⟨rfl, rfl, ?_, ?_⟩⟩
    · simp [Queue.NumRequeues_Forget_Done]
    · simp

theorem FailureEpisode_counter (cs : Nat → Controller) (keyRaw : String) (n : Nat)
    (hep : FailureEpisode cs keyRaw n) (hn : n ≤ 5) :
    ∀ i, i ≤ n → (cs i).Queue.NumRequeues (Value.str keyRaw) = i := by
  obtain ⟨h0, hpass, hnext⟩ := hep
  intro i
  induction i with
  | zero => intro _; exact h0
  | succ j ih =>
    intro hj
    have hjn : j ≤ n := by omega
    have hcj := ih hjn
    obtain ⟨hget, herr⟩ := hpass j hjn
    have hlt : (cs j).Queue.NumRequeues (Value.str keyRaw) < 5 := by rw [hcj]; omega
    rw [hnext j (by omega), ((pass_lookup_error (cs j) keyRaw hget herr).1 hlt).2.2, hcj]

theorem addRateLimitedCalls_episode (cs : Nat → Controller) (keyRaw : String) (n : Nat)
    (hep : FailureEpisode cs keyRaw n) (hn : n ≤ 5) :
    ∀ m, m ≤ n + 1 → addRateLimitedCalls cs m = min m 5 := by
  have hcount := FailureEpisode_counter cs keyRaw n hep hn
  obtain ⟨h0, hpass, hnext⟩ := hep
  intro m
  induction m with
  | zero => intro _; rfl
  | succ j ih =>
    intro hj
    have hjn : j ≤ n := by omega
    obtain ⟨hget, herr⟩ := hpass j hjn
    have hsum : addRateLimitedCalls cs (j + 1) = addRateLimitedCalls cs j +
        ((processNextItem (cs j)).trace.filter Event.isAddRateLimited).length := by
      simp [addRateLimitedCalls, List.range_succ]
    rw [hsum, ih (by omega)]
    by_cases hlt : j < 5
    · have h5 : (cs j).Queue.NumRequeues (Value.str keyRaw) < 5 := by
        rw [hcount j hjn]; exact hlt
      rw [((pass_lookup_error (cs j) keyRaw hget herr).1 h5).1]
      simp only [List.length_singleton]
      omega
    · have h5 : ¬ (cs j).Queue.NumRequeues (Value.str keyRaw) < 5 := by
        rw [hcount j hjn]; exact hlt
      rw [((pass_lookup_error (cs j) keyRaw hget herr).2 h5).2.1]
      simp only [List.length_nil]
      omega

/-- The scenario run on a queue that holds only the key: six failed
deliveries, the sixth of which forgets the key, and then nothing is left to
deliver. -/
theorem deliveries_scenario (c : Controller) (keyRaw e : String)
    (hq : c.Queue.holdsOnly (Value.str keyRaw))
    (h0 : c.Queue.NumRequeues (Value.str keyRaw) = 0)
    (herr : (c.Informer.GetByKey keyRaw).err = some e) :
    (deliveries 6 c).1 = (deliveries 5 c).1 ++
      [Event.get (Value.str keyRaw) false, Event.getByKey keyRaw,
       Event.log (LogMsg.errorRetrieving (Value.str keyRaw) e),
       Event.numRequeues (Value.str keyRaw) 5,
       Event.log (LogMsg.maxRetriesExceeded (Value.str keyRaw)),
       Event.forget (Value.str keyRaw), Event.done (Value.str keyRaw)] ∧
    (deliveries 5 c).1.filter Event.isForget = [] ∧
    (deliveries 6 c).2.Queue.NumRequeues (Value.str keyRaw) = 0 ∧
    (deliveries 6 c).1.filter Event.isAddRateLimited
      = List.replicate 5 (Event.addRateLimited (Value.str keyRaw)) ∧
    (deliveries 6 c).2.Queue.idle ∧
    (processNextItem (deliveries 6 c).2).outcome = Outcome.blocked ∧
    (∀ m, deliveries (6 + m) c = deliveries 6 c) := by
  obtain ⟨ht, hidle, hn, ha, _⟩ := deliveries_sixth c keyRaw e hq h0 herr
  refine ⟨?_, (deliveries_retrying c keyRaw e hq h0 herr 5 (le_refl 5)).2.2.2.2, hn, ha,
    hidle, ?_, ?_⟩
  · show (deliveries 5 c).1 ++ (delivery (deliveries 5 c).2).trace = _
    rw [ht]
  · exact (delivery_idle (deliveries 6 c).2 hidle).1
  · exact deliveries_of_idle c 6 hidle

/-! ## The claims -/

/-- C1 (as amended): for a claimed key whose cache lookup succeeds, the pass
invokes exactly one handler exactly once, chosen by `exists`: the deletion
handler with the key itself when `exists=false`, the creation handler with the
cache entry when `exists=true`, never the other one; and when that handler
returns normally the pass then calls `Forget(key)` and `Done(key)`, so the
key's retry counter is 0 afterwards. -/
theorem processNextItem_dispatch (c : Controller) (keyRaw : String) (q1 : Queue)
    (hget : c.Queue.Get = some (Value.str keyRaw, false, q1))
    (herr : (c.Informer.GetByKey keyRaw).err = none) :
    ((c.Informer.GetByKey keyRaw).exists = false →
      (processNextItem c).trace.filter Event.isHandlerCall
        = [Event.objectDeleted (Value.str keyRaw)] ∧
      ((c.Handler.ObjectDeleted (Value.str keyRaw)).panics = false →
        (processNextItem c).outcome = Outcome.returned true ∧
        (processNextItem c).trace =
          [Event.get (Value.str keyRaw) false, Event.getByKey keyRaw,
            Event.objectDeleted (Value.str keyRaw)]
          ++ (c.Handler.ObjectDeleted (Value.str keyRaw)).logs.map Event.log
          ++ [Event.forget (Value.str keyRaw), Event.done (Value.str keyRaw)] ∧
        (processNextItem c).c.Queue.NumRequeues (Value.str keyRaw) = 0)) ∧
    ((c.Informer.GetByKey keyRaw).exists = true →
      (processNextItem c).trace.filter Event.isHandlerCall
        = [Event.objectCreated (c.Informer.GetByKey keyRaw).item] ∧
      ((c.Handler.ObjectCreated (c.Informer.GetByKey keyRaw).item).panics = false →
        (processNextItem c).outcome = Outcome.returned true ∧
        (processNextItem c).trace =
          [Event.get (Value.str keyRaw) false, Event.getByKey keyRaw,
            Event.objectCreated (c.Informer.GetByKey keyRaw).item]
          ++ (c.Handler.ObjectCreated (c.Informer.GetByKey keyRaw).item).logs.map Event.log
          ++ [Event.forget (Value.str keyRaw), Event.done (Value.str keyRaw)] ∧
        (processNextItem c).c.Queue.NumRequeues (Value.str keyRaw) = 0)) := by
  rw [processNextItem_claimed c _ q1 hget]
  constructor
  · intro hex
    rw [processBody_deleted { c with Queue := q1 } keyRaw herr hex]
    constructor
    · split <;>
        simp [List.filter_cons, Event.isHandlerCall, filter_isHandlerCall_logs]
    · intro hp
      simp [hp, Queue.NumRequeues_Forget_Done]
  · intro hex
    rw [processBody_created { c with Queue := q1 } keyRaw herr hex]
    constructor
    · split <;>
        simp [List.filter_cons, Event.isHandlerCall, filter_isHandlerCall_logs]
    · intro hp
      simp [hp, Queue.NumRequeues_Forget_Done]

/-- C1 (witness): the key `ns/pod-1` is claimed, the cache holds the pod, and
the creation handler is the one invoked. -/
theorem processNextItem_dispatch_witness :
    (processNextItem createdController).trace.filter Event.isHandlerCall
        = [Event.objectCreated (createdController.Informer.GetByKey "ns/pod-1").item] ∧
    (processNextItem createdController).c.Queue.NumRequeues (Value.str "ns/pod-1") = 0 :=
  ⟨((processNextItem_dispatch createdController "ns/pod-1" _ rfl rfl).2 rfl).1,
   (((processNextItem_dispatch createdController "ns/pod-1" _ rfl rfl).2 rfl).2 rfl).2.2⟩

/-- C1 (counterexample): the key `ns/pod-1` is claimed with retry counter 3,
its lookup succeeds with `exists=false`, and the deletion handler panics: the
handler was invoked, `Forget` is not called, and the counter is still 3 after
the pass. -/
theorem processNextItem_dispatch_counterexample :
    (panicController.Queue.Get.map fun r => (r.1, r.2.1)) = some (Value.str "ns/pod-1", false) ∧
    (panicController.Informer.GetByKey "ns/pod-1").err = none ∧
    (panicController.Informer.GetByKey "ns/pod-1").exists = false ∧
    (processNextItem panicController).trace =
      [Event.get (Value.str "ns/pod-1") false, Event.getByKey "ns/pod-1",
       Event.objectDeleted (Value.str "ns/pod-1"), Event.log (LogMsg.custom "about to fail"),
       Event.done (Value.str "ns/pod-1")] ∧
    Event.forget (Value.str "ns/pod-1") ∉ (processNextItem panicController).trace ∧
    (processNextItem panicController).c.Queue.NumRequeues (Value.str "ns/pod-1") = 3 := by
  decide

/-- C2: for a claimed key whose cache lookup returns an error, the pass
invokes no handler; when `NumRequeues(key) < 5` it calls `AddRateLimited(key)`
(the counter goes up by one) and does not call `Forget`; otherwise it calls
`Forget(key)` (the counter is 0) and does not call `AddRateLimited`; in both
cases it returns true. -/
theorem processNextItem_lookup_error (c : Controller) (keyRaw e : String) (q1 : Queue)
    (hget : c.Queue.Get = some (Value.str keyRaw, false, q1))
    (herr : (c.Informer.GetByKey keyRaw).err = some e) :
    (processNextItem c).trace.filter Event.isHandlerCall = [] ∧
    (processNextItem c).outcome = Outcome.returned true ∧
    (c.Queue.NumRequeues (Value.str keyRaw) < 5 →
      (processNextItem c).trace.filter Event.isAddRateLimited
        = [Event.addRateLimited (Value.str keyRaw)] ∧
      (processNextItem c).trace.filter Event.isForget = [] ∧
      (processNextItem c).trace =
        [Event.get (Value.str keyRaw) false, Event.getByKey keyRaw,
         Event.log (LogMsg.errorRetrieving (Value.str keyRaw) e),
         Event.numRequeues (Value.str keyRaw) (c.Queue.NumRequeues (Value.str keyRaw)),
         Event.addRateLimited (Value.str keyRaw), Event.done (Value.str keyRaw)] ∧
      (processNextItem c).c.Queue.NumRequeues (Value.str keyRaw)
        = c.Queue.NumRequeues (Value.str keyRaw) + 1) ∧
    (¬ c.Queue.NumRequeues (Value.str keyRaw) < 5 →
      (processNextItem c).trace.filter Event.isForget = [Event.forget (Value.str keyRaw)] ∧
      (processNextItem c).trace.filter Event.isAddRateLimited = [] ∧
      (processNextItem c).trace =
        [Event.get (Value.str keyRaw) false, Event.getByKey keyRaw,
         Event.log (LogMsg.errorRetrieving (Value.str keyRaw) e),
         Event.numRequeues (Value.str keyRaw) (c.Queue.NumRequeues (Value.str keyRaw)),
         Event.log (LogMsg.maxRetriesExceeded (Value.str keyRaw)),
         Event.forget (Value.str keyRaw), Event.done (Value.str keyRaw)] ∧
      (processNextItem c).c.Queue.NumRequeues (Value.str keyRaw) = 0) := by
  have hf : q1.failures = c.Queue.failures := Queue.Get_failures _ _ _ _ hget
  have hnum : q1.NumRequeues (Value.str keyRaw) = c.Queue.NumRequeues (Value.str keyRaw) := by
    simp [Queue.NumRequeues, hf]
  rw [processNextItem_claimed c _ q1 hget]
  by_cases hn : c.Queue.NumRequeues (Value.str keyRaw) < 5
  · have hn1 : q1.NumRequeues (Value.str keyRaw) < 5 := by rw [hnum]; exact hn
    rw [processBody_error_retry { c with Queue := q1 } keyRaw e herr hn1]
    refine ⟨rfl, rfl, fun _ => ⟨rfl, rfl, ?_, ?_⟩, fun h => absurd hn h⟩
    · simp [hnum]
    · simp [Queue.NumRequeues_AddRateLimited_Done, hnum]
  · have hn1 : ¬ q1.NumRequeues (Value.str keyRaw) < 5 := by rw [hnum]; exact hn
    rw [processBody_error_giveup { c with Queue := q1 } keyRaw e herr hn1]
    refine ⟨rfl, rfl, fun h => absurd h hn, fun _ => ⟨rfl, rfl, ?_, ?_⟩⟩
    · simp [hnum]
    · simp [Queue.NumRequeues_Forget_Done]

/-- C2 (witness): the key `ns/pod-3` is claimed with counter 0 and its lookup
fails: the pass calls `AddRateLimited` and the counter becomes 1. -/
theorem processNextItem_lookup_error_witness :
    (processNextItem failingController).trace.filter Event.isForget = [] ∧
    (processNextItem failingController).c.Queue.NumRequeues (Value.str "ns/pod-3") = 0 + 1 :=
  ⟨((processNextItem_lookup_error failingController "ns/pod-3" "storage fault" _ rfl rfl).2.2.1
      (by decide)).2.1,
   ((processNextItem_lookup_error failingController "ns/pod-3" "storage fault" _ rfl rfl).2.2.1
      (by decide)).2.2.2⟩

/-- C5: for a key handed out by `Get` without shutdown, the pass ends (it
returns true or panics, it does not block), it calls `Done` exactly once, with
that key, whichever way it ends: lookup error, deletion, creation, or a panic
of the key type assertion or of a handler; `Done(key)` is the last call of the
pass, hence its last queue operation. A key that is not a string makes the
type assertion panic, and the pass is `Get`, `Done(key)`. When `Get` reports
shutdown, `Done` is not called. -/
theorem processNextItem_done (c : Controller) :
    (∀ key q1, c.Queue.Get = some (key, false, q1) →
      ((processNextItem c).outcome = Outcome.returned true ∨
        (processNextItem c).outcome = Outcome.panicked) ∧
      (processNextItem c).trace.filter Event.isDone = [Event.done key] ∧
      (processNextItem c).trace.getLast? = some (Event.done key) ∧
      ((processNextItem c).trace.filter Event.isQueueOp).getLast? = some (Event.done key) ∧
      (processNextItem c).trace.head? = some (Event.get key false) ∧
      ((∀ keyRaw, key ≠ Value.str keyRaw) →
        (processNextItem c).outcome = Outcome.panicked ∧
        (processNextItem c).trace = [Event.get key false, Event.done key])) ∧
    (∀ key q1, c.Queue.Get = some (key, true, q1) →
      (processNextItem c).trace.filter Event.isDone = []) := by
  constructor
  · intro key q1 hget
    rw [processNextItem_claimed c key q1 hget]
    refine ⟨processBody_outcome _ key, ?_, ?_, ?_, ?_, ?_⟩
    · simp [List.filter_cons, Event.isDone, processBody_filter_isDone]
    · exact List.getLast?_concat _
    · rw [List.filter_append]
      exact List.getLast?_concat _
    · simp
    · intro hk
      rw [processBody_not_string _ key hk]
      exact ⟨rfl, rfl⟩
  · intro key q1 hget
    rw [(processNextItem_quit c key q1 hget).2]
    rfl

/-- C5 (witness): the deletion handler panics while `ns/pod-1` is claimed;
`Done` is still called once, last. -/
theorem processNextItem_done_witness :
    (processNextItem panicController).outcome = Outcome.panicked ∧
    (processNextItem panicController).trace.filter Event.isDone
      = [Event.done (Value.str "ns/pod-1")] ∧
    (processNextItem panicController).trace.getLast? = some (Event.done (Value.str "ns/pod-1")) ∧
    (processNextItem stoppedController).trace.filter Event.isDone = [] :=
  ⟨by decide,
   ((processNextItem_done panicController).1 (Value.str "ns/pod-1") _ rfl).2.1,
   ((processNextItem_done panicController).1 (Value.str "ns/pod-1") _ rfl).2.2.1,
   (processNextItem_done stoppedController).2 Value.nil _ rfl⟩

/-- C6: a pass returns false exactly when `Get` reports shutdown, and then
`Get` is the only call it makes (no lookup, no handler, no `AddRateLimited`,
`Forget` or `Done`); every pass that claims a key and returns normally returns
true: on a lookup error it always does, on a deletion or creation it does
whenever the handler returns; and in `runWorker` the loop is left exactly when
the pass returns false. -/
theorem processNextItem_false_iff_shutdown (c : Controller) :
    ((processNextItem c).outcome = Outcome.returned false ↔
      ∃ key q1, c.Queue.Get = some (key, true, q1)) ∧
    (∀ key q1, c.Queue.Get = some (key, true, q1) →
      (processNextItem c).trace = [Event.get key true]) ∧
    (∀ key q1 b, c.Queue.Get = some (key, false, q1) →
      (processNextItem c).outcome = Outcome.returned b → b = true) ∧
    (∀ keyRaw q1, c.Queue.Get = some (Value.str keyRaw, false, q1) →
      ((c.Informer.GetByKey keyRaw).err ≠ none →
        (processNextItem c).outcome = Outcome.returned true) ∧
      ((c.Informer.GetByKey keyRaw).err = none →
        (c.Informer.GetByKey keyRaw).exists = false →
        (c.Handler.ObjectDeleted (Value.str keyRaw)).panics = false →
        (processNextItem c).outcome = Outcome.returned true) ∧
      ((c.Informer.GetByKey keyRaw).err = none →
        (c.Informer.GetByKey keyRaw).exists = true →
        (c.Handler.ObjectCreated (c.Informer.GetByKey keyRaw).item).panics = false →
        (processNextItem c).outcome = Outcome.returned true)) ∧
    (∀ s : RunState, s.c = c → s.pc = Pc.inWorker →
      ((∃ s1, step s Label.run = some s1 ∧ s1.pc = Pc.untilSleep) ↔
        (processNextItem c).outcome = Outcome.returned false) ∧
      ((processNextItem c).outcome = Outcome.returned true →
        ∃ s1, step s Label.run = some s1 ∧ s1.pc = Pc.inWorker)) := by
  refine ⟨?_, ?_, ?_, ?_, ?_⟩
  · constructor
    · intro h
      cases hget : c.Queue.Get with
      | none => rw [(processNextItem_blocked c hget).1] at h; cases h
      | some r =>
        obtain ⟨key, quit, q1⟩ := r
        cases quit with
        | true => exact ⟨key, q1, rfl⟩
        | false =>
          rw [processNextItem_claimed c key q1 hget] at h
          rcases processBody_outcome { c with Queue := q1 } key with h1 | h1
          · simp only [h1] at h; cases h
          · simp only [h1] at h; cases h
    · rintro ⟨key, q1, hget⟩
      exact (processNextItem_quit c key q1 hget).1
  · intro key q1 hget
    exact (processNextItem_quit c key q1 hget).2
  · intro key q1 b hget h
    rw [processNextItem_claimed c key q1 hget] at h
    rcases processBody_outcome { c with Queue := q1 } key with h1 | h1
    · simp only [h1] at h; cases h; rfl
    · simp only [h1] at h; cases h
  · intro keyRaw q1 hget
    rw [processNextItem_claimed c _ q1 hget]
    refine ⟨?_, ?_, ?_⟩
    · intro herr
      cases he : (c.Informer.GetByKey keyRaw).err with
      | none => exact absurd he herr
      | some e =>
        by_cases hn : q1.NumRequeues (Value.str keyRaw) < 5
        · rw [processBody_error_retry { c with Queue := q1 } keyRaw e he hn]
        · rw [processBody_error_giveup { c with Queue := q1 } keyRaw e he hn]
    · intro herr hex hp
      rw [processBody_deleted { c with Queue := q1 } keyRaw herr hex]
      simp [hp]
    · intro herr hex hp
      rw [processBody_created { c with Queue := q1 } keyRaw herr hex]
      simp [hp]
  · rintro s rfl hpc
    constructor
    · constructor
      · rintro ⟨s1, hs, hpc1⟩
        simp only [step, runWorker, hpc] at hs
        split at hs
        · cases hs
        · simp at hs; subst hs; simp [hpc] at hpc1
        · assumption
        · simp at hs; subst hs; simp at hpc1
      · intro h
        simp [step, runWorker, hpc, h]
    · intro h
      simp [step, runWorker, hpc, h]

/-- C6 (witness): on the queue that was shut down while empty the pass returns
false after the single call `Get`; on the claimed key `ns/pod-3` whose lookup
fails it returns true. -/
theorem processNextItem_false_iff_shutdown_witness :
    (processNextItem stoppedController).trace = [Event.get Value.nil true] ∧
    (processNextItem failingController).outcome = Outcome.returned true :=
  ⟨(processNextItem_false_iff_shutdown stoppedController).2.1 Value.nil _ rfl,
   ((processNextItem_false_iff_shutdown failingController).2.2.2.1 "ns/pod-3" _ rfl).1
     (by decide)⟩

/-- C10: when a key is claimed and dispatched as a deletion, the value handed
to `ObjectDeleted` is the queue key itself, a string; `podNameLoggingHandler`
logs only for a `*Pod` argument, so with it a pass never writes a
"Pod deleted" line and the deletion call logs nothing. -/
theorem processNextItem_deletion_argument (c : Controller) (key : Value) (q1 : Queue)
    (hget : c.Queue.Get = some (key, false, q1)) :
    (∀ obj, Event.objectDeleted obj ∈ (processNextItem c).trace →
      obj = key ∧ (∃ keyRaw, obj = Value.str keyRaw) ∧
      (podNameLoggingHandler.ObjectDeleted obj).logs = []) ∧
    (c.Handler = podNameLoggingHandler →
      ∀ name, Event.log (LogMsg.podDeleted name) ∉ (processNextItem c).trace) := by
  rw [processNextItem_claimed c key q1 hget]
  cases key with
  | nil => simp [processBody]
  | pod ns name => simp [processBody]
  | other tag => simp [processBody]
  | str keyRaw =>
    cases herr : (c.Informer.GetByKey keyRaw).err with
    | some e =>
      by_cases hn : q1.NumRequeues (Value.str keyRaw) < 5
      · rw [processBody_error_retry { c with Queue := q1 } keyRaw e herr hn]
        simp
      · rw [processBody_error_giveup { c with Queue := q1 } keyRaw e herr hn]
        simp
    | none =>
      cases hex : (c.Informer.GetByKey keyRaw).exists with
      | false =>
        rw [processBody_deleted { c with Queue := q1 } keyRaw herr hex]
        constructor
        · intro obj hobj
          have : obj = Value.str keyRaw := by
            split at hobj <;> simpa using hobj
          subst this
          exact ⟨rfl, ⟨keyRaw, rfl⟩, rfl⟩
        · intro hH name
          simp [hH, podNameLoggingHandler]
      | true =>
        rw [processBody_created { c with Queue := q1 } keyRaw herr hex]
        constructor
        · intro obj hobj
          exfalso
          split at hobj <;> simp at hobj
        · intro hH name
          simp only [hH, podNameLoggingHandler]
          cases (c.Informer.GetByKey keyRaw).item <;> simp

/-- C10 (witness): `ns/pod-2` is claimed and absent from the cache; the
deletion handler receives the string key and no "Pod deleted" line is
written. -/
theorem processNextItem_deletion_argument_witness :
    Event.objectDeleted (Value.str "ns/pod-2") ∈ (processNextItem deletedController).trace ∧
    (∀ name, Event.log (LogMsg.podDeleted name) ∉ (processNextItem deletedController).trace) :=
  ⟨by decide,
   (processNextItem_deletion_argument deletedController (Value.str "ns/pod-2") _ rfl).2 rfl⟩

/-- C3 (counterexample): the key `ns/pod-3` starts with retry counter 0 and its
lookup fails on five consecutive deliveries (five "Error retrieving" lines).
After the fifth, `Forget` has not been called, the counter is 5, not 0,
`AddRateLimited` has been called five times and the key is queued again for a
sixth delivery. -/
theorem scenario_C_counterexample :
    failingController.Queue.NumRequeues (Value.str "ns/pod-3") = 0 ∧
    ((deliveries 5 failingController).1.filter fun ev =>
        ev = Event.log (LogMsg.errorRetrieving (Value.str "ns/pod-3") "storage fault")).length
      = 5 ∧
    Event.forget (Value.str "ns/pod-3") ∉ (deliveries 5 failingController).1 ∧
    (deliveries 5 failingController).2.Queue.NumRequeues (Value.str "ns/pod-3") = 5 ∧
    ((deliveries 5 failingController).1.filter Event.isAddRateLimited).length = 5 ∧
    (deliveries 5 failingController).2.Queue.queue = [Value.str "ns/pod-3"] := by
  decide

/-- C3 (as amended): starting from a key whose retry counter is 0, if the
cache lookup for that key fails on 6 consecutive deliveries (a failure episode
of six passes), then none of the first five deliveries calls `Forget`, and
after the fifth the counter is 5; the 6th delivery logs "Max retries exceeded"
and calls `Forget`, so after it the key has been forgotten and the counter is
0; exactly 5 retries were scheduled with `AddRateLimited`, none by the 6th
delivery. -/
theorem scenario_C (cs : Nat → Controller) (keyRaw : String)
    (hep : FailureEpisode cs keyRaw 5) :
    (∀ i, i < 5 → (processNextItem (cs i)).trace.filter Event.isForget = []) ∧
    (processNextItem (cs 4)).c.Queue.NumRequeues (Value.str keyRaw) = 5 ∧
    Event.log (LogMsg.maxRetriesExceeded (Value.str keyRaw)) ∈ (processNextItem (cs 5)).trace ∧
    (processNextItem (cs 5)).trace.filter Event.isForget
      = [Event.forget (Value.str keyRaw)] ∧
    (processNextItem (cs 5)).c.Queue.NumRequeues (Value.str keyRaw) = 0 ∧
    (processNextItem (cs 5)).trace.filter Event.isAddRateLimited = [] ∧
    addRateLimitedCalls cs 6 = 5 := by
  have hcount := FailureEpisode_counter cs keyRaw 5 hep (le_refl 5)
  have hcalls := addRateLimitedCalls_episode cs keyRaw 5 hep (le_refl 5) 6 (le_refl 6)
  obtain ⟨h0, hpass, hnext⟩ := hep
  have hlow : ∀ i, i < 5 →
      (processNextItem (cs i)).trace.filter Event.isForget = [] ∧
      (processNextItem (cs i)).c.Queue.NumRequeues (Value.str keyRaw) = i + 1 := by
    intro i hi
    obtain ⟨hget, herr⟩ := hpass i (by omega)
    have h5 : (cs i).Queue.NumRequeues (Value.str keyRaw) < 5 := by
      rw [hcount i (by omega)]; exact hi
    obtain ⟨_, hf, hc⟩ := (pass_lookup_error (cs i) keyRaw hget herr).1 h5
    exact ⟨hf, by rw [hc, hcount i (by omega)]⟩
  obtain ⟨hget, herr⟩ := hpass 5 (le_refl 5)
  have h5 : ¬ (cs 5).Queue.NumRequeues (Value.str keyRaw) < 5 := by
    rw [hcount 5 (le_refl 5)]; omega
  obtain ⟨hf, ha, hc, hlog⟩ := (pass_lookup_error (cs 5) keyRaw hget herr).2 h5
  exact ⟨fun i hi => (hlow i hi).1, (hlow 4 (by omega)).2, hlog, hf, hc, ha, hcalls⟩

/-- C3 (witness): the scenario on the key `ns/pod-3`: the sixth delivery
forgets the key and five retries were scheduled. -/
theorem scenario_C_witness :
    FailureEpisode (fun i => (deliveries i failingController).2) "ns/pod-3" 5 ∧
    (processNextItem (deliveries 5 failingController).2).trace.filter Event.isForget
      = [Event.forget (Value.str "ns/pod-3")] ∧
    addRateLimitedCalls (fun i => (deliveries i failingController).2) 6 = 5 :=
  ⟨by decide,
   (scenario_C (fun i => (deliveries i failingController).2) "ns/pod-3" (by decide)).2.2.2.1,
   (scenario_C (fun i => (deliveries i failingController).2) "ns/pod-3" (by decide)).2.2.2.2.2.2⟩

/-- C4: for a key whose cache lookup fails on every delivery, starting from
retry counter 0 (a failure episode of at most six passes, whatever else the
queue holds and whatever happens between the passes): the `i`-th failed
delivery observes the counter at `i`; each delivery that observes less than 5
calls `AddRateLimited` once and not `Forget`, and leaves the counter one
higher; the delivery that observes the counter at 5 calls `Forget`, which
resets it to 0, and does not call `AddRateLimited`; over the whole episode
`AddRateLimited` is called at most 5 times. -/
theorem retry_bound (cs : Nat → Controller) (keyRaw : String) (n : Nat)
    (hep : FailureEpisode cs keyRaw n) (hn : n ≤ 5) :
    (∀ i, i ≤ n → (cs i).Queue.NumRequeues (Value.str keyRaw) = i) ∧
    (∀ i, i ≤ n → i < 5 →
      (processNextItem (cs i)).trace.filter Event.isAddRateLimited
        = [Event.addRateLimited (Value.str keyRaw)] ∧
      (processNextItem (cs i)).trace.filter Event.isForget = [] ∧
      (processNextItem (cs i)).c.Queue.NumRequeues (Value.str keyRaw) = i + 1) ∧
    (n = 5 →
      (cs 5).Queue.NumRequeues (Value.str keyRaw) = 5 ∧
      (processNextItem (cs 5)).trace.filter Event.isForget
        = [Event.forget (Value.str keyRaw)] ∧
      (processNextItem (cs 5)).trace.filter Event.isAddRateLimited = [] ∧
      (processNextItem (cs 5)).c.Queue.NumRequeues (Value.str keyRaw) = 0) ∧
    addRateLimitedCalls cs (n + 1) ≤ 5 := by
  have hcount := FailureEpisode_counter cs keyRaw n hep hn
  have hcalls := addRateLimitedCalls_episode cs keyRaw n hep hn (n + 1) (le_refl _)
  obtain ⟨h0, hpass, hnext⟩ := hep
  refine ⟨hcount, ?_, ?_, ?_⟩
  · intro i hi hlt
    obtain ⟨hget, herr⟩ := hpass i hi
    have h5 : (cs i).Queue.NumRequeues (Value.str keyRaw) < 5 := by
      rw [hcount i hi]; exact hlt
    obtain ⟨ha, hf, hc⟩ := (pass_lookup_error (cs i) keyRaw hget herr).1 h5
    exact ⟨ha, hf, by rw [hc, hcount i hi]⟩
  · intro h5n
    subst h5n
    obtain ⟨hget, herr⟩ := hpass 5 (le_refl 5)
    have h5 : ¬ (cs 5).Queue.NumRequeues (Value.str keyRaw) < 5 := by
      rw [hcount 5 (le_refl 5)]; omega
    obtain ⟨hf, ha, hc, _⟩ := (pass_lookup_error (cs 5) keyRaw hget herr).2 h5
    exact ⟨hcount 5 (le_refl 5), hf, ha, hc⟩
  · rw [hcalls]
    exact Nat.min_le_right _ _

/-- C4 (witness): the six deliveries of the key `ns/pod-3`, whose lookup always
fails, form a failure episode: the fourth delivery observes the counter at 3,
the sixth forgets the key, and `AddRateLimited` is called five times at most. -/
theorem retry_bound_witness :
    FailureEpisode (fun i => (deliveries i failingController).2) "ns/pod-3" 5 ∧
    (deliveries 3 failingController).2.Queue.NumRequeues (Value.str "ns/pod-3") = 3 ∧
    (processNextItem (deliveries 5 failingController).2).c.Queue.NumRequeues
      (Value.str "ns/pod-3") = 0 ∧
    addRateLimitedCalls (fun i => (deliveries i failingController).2) (5 + 1) ≤ 5 :=
  ⟨by decide,
   (retry_bound (fun i => (deliveries i failingController).2) "ns/pod-3" 5 (by decide)
      (le_refl 5)).1 3 (by decide),
   ((retry_bound (fun i => (deliveries i failingController).2) "ns/pod-3" 5 (by decide)
      (le_refl 5)).2.2.1 rfl).2.2.2,
   (retry_bound (fun i => (deliveries i failingController).2) "ns/pod-3" 5 (by decide)
      (le_refl 5)).2.2.2⟩

/-- C7: in every execution of `Run` (with the event handler of `main.go` on the
informer), every `Queue.Get` and every handler call in the trace comes after a
`HasSynced` that returned true; the worker loop is entered only after one; such
a `HasSynced` means the informer had synced. When a sync error is reported the
stop signal has fired, no `HasSynced` returned true, the trace holds no `Get`
and no handler call, `Run` is on its way out, and once it has returned the
queue is shut down. And from the sync wait with the stop signal fired before
the informer has synced, `Run` does report the sync error, shuts the queue down
and returns. -/
theorem Run_sync_gate (c : Controller) (stop : Bool) (s : RunState)
    (hc : c.Informer.handlers = eventHandlers)
    (hreach : Reachable (Run c stop) s) :
    (∀ pre e post, s.trace = pre ++ e :: post → e.isWorkerCall = true →
      Event.hasSynced true ∈ pre) ∧
    (s.pc = Pc.inWorker → Event.hasSynced true ∈ s.trace) ∧
    (Event.hasSynced true ∈ s.trace → s.c.Informer.HasSynced = true) ∧
    (Event.handleError "error syncing cache" ∈ s.trace →
      s.stop = true ∧ Event.hasSynced true ∉ s.trace ∧
      (∀ e ∈ s.trace, e.isWorkerCall = false) ∧
      (s.pc = Pc.deferred ∨ s.pc = Pc.returned) ∧
      (s.pc = Pc.returned → Event.shutDown ∈ s.trace ∧ s.c.Queue.shuttingDown = true)) ∧
    (s.pc = Pc.syncWait → s.stop = true → s.c.Informer.HasSynced = false →
      ∃ s1, steps s [Label.stopSeen, Label.run, Label.run] = some s1 ∧
        s1.pc = Pc.returned ∧
        s1.trace = s.trace ++ [Event.handleError "error syncing cache", Event.shutDown] ∧
        s1.c.Queue.shuttingDown = true) := by
  obtain ⟨ls, hls⟩ := hreach
  have hinv := RunInv_steps ls _ s (RunInv_init c stop hc) hls
  obtain ⟨h0, h1, h2, h3, h4, h5, h6, h7⟩ := hinv
  have hspec := syncGated_spec s.trace h1
  refine ⟨hspec, ?_, h2, ?_, ?_⟩
  · intro hpc
    exact (h3 (Or.inr (Or.inl hpc))).1
  · intro herr
    obtain ⟨hsyn, hpc, hp⟩ := h5 herr
    refine ⟨h7 (Or.inr herr), hsyn, ?_, hpc, ?_⟩
    · intro e he
      cases hw : e.isWorkerCall with
      | false => rfl
      | true =>
        obtain ⟨pre, post, hsplit⟩ := List.append_of_mem he
        have := hspec pre e post hsplit hw
        exact absurd (hsplit ▸ List.mem_append_left _ this) hsyn
    · intro hret
      exact h6 (Or.inl hret)
  · intro hpc hstop _
    obtain ⟨_, _, hp⟩ := h4 (Or.inr (Or.inl hpc))
    refine ⟨{ s with
        pc := Pc.returned
        trace := s.trace ++ [Event.handleError "error syncing cache"] ++ [Event.shutDown]
        c := { s.c with Queue := s.c.Queue.ShutDown } }, ?_, rfl, by simp, rfl⟩
    simp [steps, step, runWorker, hpc, hstop, hp]

/-- C7 (witness): `Run` is called with `stopCh` already closed; the sync wait
fails, and the state after the moves run, stopSeen, run, run has returned with
the queue shut down and without any `Get` or handler call. -/
theorem Run_sync_gate_witness :
    ∃ s, steps (Run mainController true)
        [Label.run, Label.stopSeen, Label.run, Label.run] = some s ∧
      s.pc = Pc.returned ∧
      s.trace = [Event.informerRun, Event.log LogMsg.controllerStarted,
        Event.handleError "error syncing cache", Event.shutDown] ∧
      (∀ e ∈ s.trace, e.isWorkerCall = false) ∧
      s.c.Queue.shuttingDown = true :=
  ⟨_, rfl, rfl, rfl,
    ((Run_sync_gate mainController true _ rfl
      ⟨[Label.run, Label.stopSeen, Label.run, Label.run], rfl⟩).2.2.2.1 (by decide)).2.2.1,
    (((Run_sync_gate mainController true _ rfl
      ⟨[Label.run, Label.stopSeen, Label.run, Label.run], rfl⟩).2.2.2.1 (by decide)).2.2.2.2
      rfl).2⟩

/-- C8 (the code at the failing input): on the controller of `main.go`, after
the moves `stopWhileBlocked` the controller is Running, the stop signal has
fired and the worker is in `Get` on an empty, open queue. There `Get` blocks, the
`Run` goroutine has no move at all (neither a statement, nor a timer branch,
nor a `stopCh` branch), and whatever happens afterwards `Run` stays in the
worker loop: the queue is never shut down and no `ShutDown` call is ever made. -/
theorem Run_stop_while_worker_blocked :
    ∃ s, steps (Run mainController false) stopWhileBlocked = some s ∧
      s.pc = Pc.inWorker ∧ s.stop = true ∧ s.c.Informer.HasSynced = true ∧
      s.c.Queue.queue = [] ∧ s.c.Queue.shuttingDown = false ∧
      (processNextItem s.c).outcome = Outcome.blocked ∧
      (step s Label.run).isNone = true ∧
      (step s Label.tick).isNone = true ∧
      (step s Label.stopSeen).isNone = true ∧
      (∀ ls s1, steps s ls = some s1 →
        s1.pc = Pc.inWorker ∧ s1.c.Queue.shuttingDown = false ∧
        Event.shutDown ∉ s1.trace) := by
  refine ⟨_, rfl, rfl, rfl, rfl, rfl, rfl, rfl, rfl, rfl, rfl, ?_⟩
  intro ls s1 h
  have hp : Parked s1 := by
    refine Parked_steps ls _ s1 ⟨rfl, rfl, ?_, rfl, ?_, ?_, ?_⟩ h
    · decide
    · intro v
      cases v <;> exact ⟨rfl, rfl⟩
    · intro k hk
      cases hk
    · intro k hk
      cases hk
  exact ⟨hp.1, hp.2.1, hp.2.2.1⟩

/-- C9 (counterexample): an update event for the pod `ns/pod-1`, whose key is
computable, is delivered to the informer that carries the event handler of
`main.go`: no call is made, `Queue.Add` is not called, and the queue stays
empty. -/
theorem eventHandlers_update_counterexample :
    MetaNamespaceKeyFunc (Value.pod "ns" "pod-1") = Except.ok "ns/pod-1" ∧
    (emptyInformer.dispatch
      (Notification.updated (Value.pod "ns" "pod-1") (Value.pod "ns" "pod-1")) Queue.empty).1
      = [] ∧
    (emptyInformer.dispatch
      (Notification.updated (Value.pod "ns" "pod-1") (Value.pod "ns" "pod-1")) Queue.empty).2.queue
      = [] :=
  ⟨rfl, rfl, rfl⟩

/-- C9 (as amended): for every add event delivered by the event source whose
object has a computable key, the event handler registered on the informer
computes that key and calls `Queue.Add` with it; an object whose key
computation fails is not enqueued; for an update event the handler makes no
call and leaves the queue as it is. -/
theorem eventHandlers_enqueue (i : SharedIndexInformer) (q : Queue)
    (hi : i.handlers = eventHandlers) :
    (∀ obj key, MetaNamespaceKeyFunc obj = Except.ok key →
      i.dispatch (Notification.added obj) q
        = ([Event.add (Value.str key)], q.Add (Value.str key))) ∧
    (∀ obj e, MetaNamespaceKeyFunc obj = Except.error e →
      i.dispatch (Notification.added obj) q = ([], q)) ∧
    (∀ oldObj newObj, i.dispatch (Notification.updated oldObj newObj) q = ([], q)) := by
  refine ⟨?_, ?_, ?_⟩
  · intro obj key hk
    simp [SharedIndexInformer.dispatch, hi, ResourceEventHandlerFuncs.OnAdd, eventHandlers, hk]
  · intro obj e hk
    simp [SharedIndexInformer.dispatch, hi, ResourceEventHandlerFuncs.OnAdd, eventHandlers, hk]
  · intro oldObj newObj
    simp [SharedIndexInformer.dispatch, hi, ResourceEventHandlerFuncs.OnUpdate, eventHandlers]

/-- C9 (witness): the pod `ns/pod-1` is added: `Queue.Add` is called with the
key `ns/pod-1`, which becomes ready in the queue. -/
theorem eventHandlers_enqueue_witness :
    emptyInformer.dispatch (Notification.added (Value.pod "ns" "pod-1")) Queue.empty
      = ([Event.add (Value.str "ns/pod-1")], Queue.empty.Add (Value.str "ns/pod-1")) ∧
    (Queue.empty.Add (Value.str "ns/pod-1")).queue = [Value.str "ns/pod-1"] :=
  ⟨(eventHandlers_enqueue emptyInformer Queue.empty rfl).1 (Value.pod "ns" "pod-1")
      "ns/pod-1" rfl,
   by decide⟩

end K8sController
